import Mathlib

/-! Backend registry and connection dispatcher of sniproxy (src/backend.c)

A shallow embedding of the four functions of backend.c: add_backend,
lookup_backend, remove_backend and open_backend_socket.

Conventions of the embedding.

* A C string is the list of its bytes before the terminating NUL; a byte is a
  natural number. A heap block holding a string is the list of all its bytes,
  terminator included.
* The PCRE library, the allocator, the resolver and the socket layer are not
  part of the program. PCRE is a parameter (structure Pcre) which is handed the
  options and the start offset that backend.c passes; the outcome of the
  allocations of one add_backend call is an argument (structure Alloc); the
  resolver is a parameter (structure Net) and every candidate address carries
  the answers that socket() and connect() give for it.
* The STAILQ tail queue of sys/queue.h is the list of its elements in queue
  order: STAILQ_INSERT_TAIL appends, STAILQ_FOREACH walks the list from the
  front, STAILQ_REMOVE unlinks the element with the given address.
* Undefined behaviour (an access outside a heap block, a NULL string handed to
  strcmp) is the result none.
* syslog messages of priority LOG_DEBUG are left out; the others are recorded.
-/

namespace Sniproxy

/-- A C string: its bytes before the terminating NUL. -/
abbrev CStr := List Nat

/-- The bytes of a string literal, as a C string. -/
def cstr (s : String) : CStr := s.toList.map Char.toNat

/-- The PCRE library. pcre_compile takes the pattern and the option bits (the
error outputs and the character table, which backend.c leaves NULL, are left
out) and yields a compiled pattern or NULL (none). pcre_exec takes a compiled
pattern, the subject with its length, the start offset and the option bits (the
study data and the output vector, which backend.c leaves NULL, are left out) and
yields a non-negative number on a match and a negative error code otherwise. -/
structure Pcre (Re : Type) where
  pcre_compile : CStr → Nat → Option Re
  pcre_exec : Re → CStr → Nat → Nat → Int

/-- Modelled from the spec: struct Backend of backend.h, which is not among the
sources. The fields are the ones backend.c reads and writes (hostname, address,
port, hostname_re); a pointer field is none when it is NULL. The entries link of
the tail queue is the position in the list, and ptr is the address of the struct,
by which a struct Backend pointer is identified. -/
structure Backend (Re : Type) where
  ptr : Nat
  hostname : Option CStr
  address : Option CStr
  port : Int
  hostname_re : Option Re
  deriving DecidableEq, Repr

/-- Modelled from the spec: struct Backend_head of backend.h (a STAILQ head),
which is not among the sources: the Backends of the queue, first to last. -/
abbrev Backend_head (Re : Type) := List (Backend Re)

/-- The messages backend.c hands to syslog with a priority above LOG_DEBUG. -/
inductive Syslog where
  /-- LOG_CRIT "calloc failed" -/
  | calloc_failed
  /-- LOG_CRIT "strdup failed" -/
  | strdup_failed
  /-- LOG_CRIT "Regex compilation failed: %s, offset %d" -/
  | regex_compilation_failed
  /-- LOG_NOTICE "Lookup error: %s" with the text of the resolver error -/
  | lookup_error (error : Int)
  /-- LOG_ERR "%s error: %s" with the cause and the text of errno -/
  | cause_error (cause : Option String)
  deriving DecidableEq, Repr

/-- The outcome of the three allocations of one add_backend call: calloc yields
NULL (none) or the address of a zeroed struct Backend, and each strdup either
fails (false) or yields a copy of its argument (true). -/
structure Alloc where
  calloc : Option Nat
  strdup_hostname : Bool
  strdup_address : Bool
  deriving DecidableEq, Repr

/-- What one add_backend call leaves behind: the pointer it returns (none is
NULL), the queue after the call and the messages it logged. -/
structure AddResult (Re : Type) where
  ret : Option (Backend Re)
  head : Backend_head Re
  log : List Syslog
  deriving DecidableEq, Repr

/-- tolower of ctype.h in the C locale. -/
def tolower (c : Nat) : Nat :=
  if 65 ≤ c ∧ c ≤ 90 then c + 32 else c

/-- The heap block strdup returns for a C string: its bytes and the terminator. -/
def strdup (s : CStr) : List Nat := s ++ [0]

/-- The C string held in a block: the bytes before the first NUL. -/
def c_string (block : List Nat) : CStr := block.takeWhile (fun c => c ≠ 0)

/-- The loop of add_backend lines 75-76,
for (ch = backend->address; *ch == 0; ch++) *ch = tolower(*ch);
run on the bytes of the block from ch to the end of the block. The result is the
same bytes after the loop, or none when the loop reads past the end of the
block. -/
def lower_loop : List Nat → Option (List Nat)
  | [] => none
  | c :: rest =>
    if c = 0 then (lower_loop rest).map (fun rest' => tolower c :: rest')
    else some (c :: rest)

/-- Function add_backend of backend.c, lines 48-92. free_backend releases the
struct being built and touches nothing else, so the failure paths leave the
queue as it was. -/
def add_backend {Re : Type} (P : Pcre Re) (alloc : Alloc) (head : Backend_head Re)
    (hostname address : CStr) (port : Int) : Option (AddResult Re) :=
  match alloc.calloc with
  | none => some ⟨none, head, [Syslog.calloc_failed]⟩
  | some p =>
    let backend : Backend Re := ⟨p, none, none, 0, none⟩
    if alloc.strdup_hostname = false then
      some ⟨none, head, [Syslog.strdup_failed]⟩
    else
      let backend := { backend with hostname := some hostname }
      if alloc.strdup_address = false then
        some ⟨none, head, [Syslog.strdup_failed]⟩
      else
        match lower_loop (strdup address) with
        | none => none
        | some block =>
          let backend := { backend with address := some (c_string block) }
          let backend := { backend with port := port }
          match P.pcre_compile hostname 0 with
          | none => some ⟨none, head, [Syslog.regex_compilation_failed]⟩
          | some re =>
            let backend := { backend with hostname_re := some re }
            some ⟨some backend, head ++ [backend], []⟩

/-- The call pcre_exec(re, NULL, subject, strlen(subject), 0, 0, NULL, 0) of
lookup_backend: start offset 0 and options 0. PCRE answers PCRE_ERROR_NULL (-2)
when the pattern is NULL. -/
def exec_re {Re : Type} (P : Pcre Re) (re : Option Re) (subject : CStr) : Int :=
  match re with
  | none => -2
  | some r => P.pcre_exec r subject 0 0

/-- The STAILQ_FOREACH loop of lookup_backend, lines 101-109. -/
def lookup_loop {Re : Type} (P : Pcre Re) (hostname : CStr) :
    List (Backend Re) → Option (Backend Re)
  | [] => none
  | iter :: rest =>
    if 0 ≤ exec_re P iter.hostname_re hostname then some iter
    else lookup_loop P hostname rest

/-- Function lookup_backend of backend.c, lines 94-110; a NULL hostname is
none. -/
def lookup_backend {Re : Type} (P : Pcre Re) (head : Backend_head Re)
    (hostname : Option CStr) : Option (Backend Re) :=
  let hostname := match hostname with
    | none => []
    | some h => h
  lookup_loop P hostname head

/-- The macro STAILQ_REMOVE(head, elm, Backend, entries) of sys/queue.h: the
element at address elm is unlinked. The macro walks the queue until it meets
elm and reads through a NULL link when elm is not in the queue, which is the
result none. -/
def stailq_remove {Re : Type} (elm : Nat) : List (Backend Re) → Option (List (Backend Re))
  | [] => none
  | x :: rest =>
    if x.ptr = elm then some rest
    else (stailq_remove elm rest).map (fun rest' => x :: rest')

/-- Function remove_backend of backend.c, lines 112-116: the Backend is unlinked
from the queue and then released by free_backend, which touches nothing else.
The result is the queue after the call. -/
def remove_backend {Re : Type} (head : Backend_head Re) (backend : Backend Re) :
    Option (Backend_head Re) :=
  stailq_remove backend.ptr head

/-- Whether the compiled matcher of a Backend matches a hostname, as
lookup_backend tests it. -/
def matches_hostname {Re : Type} (P : Pcre Re) (b : Backend Re) (hostname : CStr) : Prop :=
  0 ≤ exec_re P b.hostname_re hostname

instance {Re : Type} (P : Pcre Re) (b : Backend Re) (hostname : CStr) :
    Decidable (matches_hostname P b hostname) := by
  unfold matches_hostname; infer_instance

/-- One struct addrinfo of the list the resolver returns (netdb.h), with the
fields open_backend_socket reads: ai_family, ai_socktype,
ai_protocol and the bytes of ai_addr (ai_addrlen is their number). With it come
the answers of the socket layer for this candidate: socket_ret is what
socket(ai_family, ai_socktype, ai_protocol) returns when the loop reaches the
candidate, and connect_ret is what connect returns on that socket. -/
structure Candidate where
  ai_family : Int
  ai_socktype : Int
  ai_protocol : Int
  ai_addr : List Nat
  socket_ret : Int
  connect_ret : Int
  deriving DecidableEq, Repr

/-- The resolver: getaddrinfo(node, service, hints, results) with the hints of
open_backend_socket (PF_UNSPEC, SOCK_STREAM) yields its error code and, through
results, the list of candidates. A NULL node is none. -/
structure Net where
  getaddrinfo : Option CStr → CStr → Int × List Candidate

/-- The calls open_backend_socket makes to the resolver, to the socket layer and
to syslog, with their arguments. -/
inductive Call where
  | getaddrinfo (node : Option CStr) (service : CStr)
  | socket (ai_family ai_socktype ai_protocol : Int)
  | connect (sockfd : Int) (ai_addr : List Nat)
  | close (sockfd : Int)
  | freeaddrinfo
  | syslog (msg : Syslog)
  deriving DecidableEq, Repr

/-- What one open_backend_socket call leaves behind: the descriptor it returns
and the calls it made, in order. -/
structure SocketResult where
  ret : Int
  calls : List Call
  deriving DecidableEq, Repr

/-- The decimal digits of a number, most significant first, as bytes; the first
argument bounds the number of digits. -/
def dec_digits_fuel : Nat → Nat → List Nat → List Nat
  | 0, _, acc => acc
  | fuel + 1, n, acc =>
    if n / 10 = 0 then (48 + n % 10) :: acc
    else dec_digits_fuel fuel (n / 10) ((48 + n % 10) :: acc)

/-- The decimal digits of a natural number. -/
def dec_digits (n : Nat) : List Nat := dec_digits_fuel (n + 1) n []

/-- The text printf produces for the conversion %d. -/
def fmt_d (v : Int) : CStr :=
  if v < 0 then 45 :: dec_digits v.natAbs else dec_digits v.natAbs

/-- The C string snprintf(buf, size, "%d", v) leaves in buf: the text of v cut to
size - 1 bytes. -/
def snprintf_d (size : Nat) (v : Int) : CStr := (fmt_d v).take (size - 1)

/-- The state of the loop of open_backend_socket: the locals sockfd and cause,
and the calls made so far. -/
structure LoopState where
  sockfd : Int
  cause : Option String
  calls : List Call
  deriving DecidableEq, Repr

/-- The loop of open_backend_socket, lines 153-168, over the candidates from
iter on. -/
def connect_loop : List Candidate → LoopState → LoopState
  | [], st => st
  | iter :: rest, st =>
    let sockfd := iter.socket_ret
    let calls := st.calls ++ [Call.socket iter.ai_family iter.ai_socktype iter.ai_protocol]
    if sockfd < 0 then
      connect_loop rest ⟨sockfd, some "socket", calls⟩
    else
      let calls := calls ++ [Call.connect sockfd iter.ai_addr]
      if iter.connect_ret < 0 then
        connect_loop rest ⟨-1, some "connect", calls ++ [Call.close sockfd]⟩
      else
        ⟨sockfd, st.cause, calls⟩

/-- Lines 136-138 of open_backend_socket: the host to resolve is b->address, or
req_hostname when strcmp finds b->address equal to "*". -/
def target_hostname (address : CStr) (req_hostname : Option CStr) : Option CStr :=
  if address = cstr "*" then req_hostname else some address

/-- Function open_backend_socket of backend.c, lines 129-174; a NULL
req_hostname is none. The result is none when b->address is NULL, which strcmp
must not be given. -/
def open_backend_socket {Re : Type} (N : Net) (b : Backend Re)
    (req_hostname : Option CStr) : Option SocketResult :=
  match b.address with
  | none => none
  | some address =>
    let target := target_hostname address req_hostname
    let portstr := snprintf_d 6 b.port
    let calls := [Call.getaddrinfo target portstr]
    match N.getaddrinfo target portstr with
    | (error, results) =>
      if error ≠ 0 then
        some ⟨-1, calls ++ [Call.syslog (Syslog.lookup_error error)]⟩
      else
        let st := connect_loop results ⟨-1, none, calls⟩
        let calls :=
          if st.sockfd < 0 then st.calls ++ [Call.syslog (Syslog.cause_error st.cause)]
          else st.calls
        some ⟨st.sockfd, calls ++ [Call.freeaddrinfo]⟩

/-- Whether a list of bytes starts with another. -/
def starts_with : List Nat → List Nat → Bool
  | [], _ => true
  | _ :: _, [] => false
  | a :: p, b :: s => a == b && starts_with p s

/-- Whether a list of bytes occurs in another as a run of consecutive bytes. -/
def occurs_in (p : List Nat) : List Nat → Bool
  | [] => starts_with p []
  | b :: s => starts_with p (b :: s) || occurs_in p s

/-- Whether a byte is an ASCII letter or digit. -/
def is_alnum (c : Nat) : Bool :=
  (48 ≤ c && c ≤ 57) || (65 ≤ c && c ≤ 90) || (97 ≤ c && c ≤ 122)

/-- A stand-in for PCRE on the patterns of the examples below. A pattern of
letters and digits only has no metacharacter: PCRE compiles it, and it matches a
subject exactly when it occurs in the subject. Every other pattern is refused;
the only such pattern the examples use is "(", which PCRE refuses as well
(missing closing parenthesis). The compiled form of a pattern is the pattern
itself, and the answers of pcre_exec are 0 for a match and PCRE_ERROR_NOMATCH
(-1) otherwise. The only option modelled is PCRE_ANCHORED (16) of pcre_exec,
which ties the match to the start offset; any other option word is refused, by
pcre_exec with PCRE_ERROR_BADOPTION (-3). -/
def literal_pcre : Pcre CStr where
  pcre_compile := fun p options =>
    if options = 0 then (if p.all is_alnum then some p else none) else none
  pcre_exec := fun re subject startoffset options =>
    if options = 0 then (if occurs_in re (subject.drop startoffset) then 0 else -1)
    else if options = 16 then (if starts_with re (subject.drop startoffset) then 0 else -1)
    else -3

/-- The lower-case form of a C string: tolower applied to every byte. -/
def lower_case (s : CStr) : CStr := s.map tolower

/-- The subject lookup_backend matches against: the hostname, or the empty
string when the hostname is NULL. -/
def subject_of (hostname : Option CStr) : CStr :=
  match hostname with
  | none => []
  | some h => h

/-- Whether a pattern compiles and its compiled form matches a hostname, with
the options and the start offset backend.c passes, all 0. -/
def pattern_matches {Re : Type} (P : Pcre Re) (pattern hostname : CStr) : Prop :=
  ∃ re, P.pcre_compile pattern 0 = some re ∧ 0 ≤ P.pcre_exec re hostname 0 0

/-- Whether one of the three allocations of an add_backend call fails. -/
def Alloc.fails (alloc : Alloc) : Prop :=
  alloc.calloc = none ∨ alloc.strdup_hostname = false ∨ alloc.strdup_address = false

instance (alloc : Alloc) : Decidable alloc.fails := by
  unfold Alloc.fails; infer_instance

/-- The number a list of decimal digit bytes denotes, most significant digit
first. -/
def undigits (l : List Nat) : Nat := l.foldl (fun a d => 10 * a + (d - 48)) 0

/-- The descriptors a run of calls leaves open, given the ones open before it.
In open_backend_socket every socket call that yields a descriptor is followed at
once by connect on that descriptor (lines 154-160), and a socket call that
fails yields none, so a created socket shows in the calls as the descriptor
handed to connect; close releases the descriptor it is given. -/
def descriptors_open : List Call → List Int → List Int
  | [], opened => opened
  | Call.connect sockfd _ :: rest, opened => descriptors_open rest (sockfd :: opened)
  | Call.close sockfd :: rest, opened => descriptors_open rest (opened.erase sockfd)
  | _ :: rest, opened => descriptors_open rest opened

/-- One item of a compiled pattern of the fragment of PCRE modelled here: a byte
that stands for itself, or the dot. -/
inductive Atom where
  | lit (c : Nat)
  | any
  deriving DecidableEq, Repr

/-- The bytes that are metacharacters of PCRE outside a character class:
backslash, caret, dollar, dot, opening bracket, bar, both parentheses, question
mark, star, plus and opening brace. -/
def is_meta (c : Nat) : Bool :=
  c == 92 || c == 94 || c == 36 || c == 46 || c == 91 || c == 124 || c == 40 ||
    c == 41 || c == 63 || c == 42 || c == 43 || c == 123

/-- A token of a pattern of the fragment: an item that matches one byte, or one
of the quantifiers star and plus. -/
inductive Token where
  | atom (a : Atom)
  | star
  | plus
  deriving DecidableEq, Repr

/-- One item of a compiled pattern of the fragment: an atom taken once, or an
atom under the star, taken any number of times. -/
inductive Item where
  | one (a : Atom)
  | many (a : Atom)
  deriving DecidableEq, Repr

/-- The tokens of a pattern of the fragment. A backslash before a byte that is
no letter or digit makes that byte stand for itself; a dot is the dot; star and
plus are quantifiers; any other byte that is no metacharacter stands for itself.
A backslash at the end of the pattern is an error in PCRE. The other
metacharacters and the escapes of letters and digits lie outside the fragment
and are refused here, though PCRE gives many of them a meaning. -/
def scan_tokens : CStr → Option (List Token)
  | [] => some []
  | c :: rest =>
    if c = 92 then
      match rest with
      | [] => none
      | e :: rest' =>
        if is_alnum e then none
        else (scan_tokens rest').map (fun ts => Token.atom (Atom.lit e) :: ts)
    else if c = 46 then (scan_tokens rest).map (fun ts => Token.atom Atom.any :: ts)
    else if c = 42 then (scan_tokens rest).map (fun ts => Token.star :: ts)
    else if c = 43 then (scan_tokens rest).map (fun ts => Token.plus :: ts)
    else if is_meta c then none
    else (scan_tokens rest).map (fun ts => Token.atom (Atom.lit c) :: ts)

/-- The items of a run of tokens: a quantifier binds the atom before it, and an
atom under plus is the atom once and then under the star. A quantifier with no
atom before it is an error in PCRE (nothing to repeat); a quantifier that
follows a quantifier is either that error or a possessive quantifier, which lies
outside the fragment; both are refused. -/
def group_items : List Token → Option (List Item)
  | [] => some []
  | Token.atom a :: Token.star :: rest =>
    (group_items rest).map (fun items => Item.many a :: items)
  | Token.atom a :: Token.plus :: rest =>
    (group_items rest).map (fun items => Item.one a :: Item.many a :: items)
  | Token.atom a :: rest => (group_items rest).map (fun items => Item.one a :: items)
  | Token.star :: _ => none
  | Token.plus :: _ => none

/-- The fragment of pcre_compile modelled here: patterns made of literal bytes,
escaped bytes and dots, each taken once or under star or plus, compiled with
options 0. Any other option word and any other pattern is refused here. -/
def compile_items (pattern : CStr) (options : Nat) : Option (List Item) :=
  if options = 0 then
    match scan_tokens pattern with
    | none => none
    | some ts => group_items ts
  else none

/-- Whether an item matches a byte of the subject: a literal matches itself, the
dot matches every byte but the newline (10), as PCRE does without
PCRE_DOTALL. -/
def atom_matches : Atom → Nat → Bool
  | Atom.lit c, d => c == d
  | Atom.any, d => d != 10

/-- An atom under the star, followed by what the test k stands for: the star
takes no byte, or one matching byte and then goes on. -/
def many_then (a : Atom) (k : CStr → Bool) : CStr → Bool
  | [] => k []
  | d :: s => k (d :: s) || (atom_matches a d && many_then a k s)

/-- Whether the items match at the start of a string in such a way that the
rest of the string passes the test k. -/
def run_items : List Item → (CStr → Bool) → CStr → Bool
  | [], k, s => k s
  | Item.one a :: items, k, s =>
    match s with
    | [] => false
    | d :: s' => atom_matches a d && run_items items k s'
  | Item.many a :: items, k, s => many_then a (fun r => run_items items k r) s

/-- Whether the items match the whole of a string. -/
def full_match (items : List Item) (s : CStr) : Bool :=
  run_items items (fun r => r.isEmpty) s

/-- Whether the items match at the start of a string, which may go on after the
match. -/
def match_here (items : List Item) (s : CStr) : Bool :=
  run_items items (fun _ => true) s

/-- Whether the items match at some offset of a string: the offsets are tried
from the first on. -/
def search (items : List Item) : CStr → Bool
  | [] => match_here items []
  | d :: s => match_here items (d :: s) || search items s

/-- The fragment of pcre_exec modelled here, with no output vector. A start
offset past the end of the subject is PCRE_ERROR_BADOFFSET (-24). With options 0
the pattern is tried at the start offset and at every offset after it; with
PCRE_ANCHORED (16) it is tried at the start offset only; any other option word
is refused with PCRE_ERROR_BADOPTION (-3). The answer is 0 for a match and
PCRE_ERROR_NOMATCH (-1) otherwise. -/
def fragment_exec (items : List Item) (subject : CStr) (startoffset options : Nat) : Int :=
  if subject.length < startoffset then -24
  else if options = 0 then
    if search items (subject.drop startoffset) then 0 else -1
  else if options = 16 then
    if match_here items (subject.drop startoffset) then 0 else -1
  else -3

/-- A stand-in for PCRE on the fragment of literal bytes, escaped bytes and dots,
each taken once or under star or plus. -/
def fragment_pcre : Pcre (List Item) where
  pcre_compile := compile_items
  pcre_exec := fragment_exec

/-- What it means for the fragment that a compiled pattern matches the bytes
mid of a subject where they stand, between the bytes before and the bytes after:
the items match mid as a whole. The fragment has no anchor and no assertion, so
the bytes around mid play no part. -/
def fragment_span (items : List Item) (_before mid _after : CStr) : Prop :=
  full_match items mid = true

/-- The contract of pcre_exec that the question of anchoring turns on, for a
library P and a relation span, where span re before mid after says that the
compiled pattern re matches the bytes mid of the subject before ++ mid ++ after
where they stand. Called at start offset 0 with options 0, pcre_exec finds a
match exactly when the pattern matches some run of consecutive bytes of the
subject; called with PCRE_ANCHORED (16), exactly when it matches a run that
starts at the first byte. -/
def search_contract {Re : Type} (P : Pcre Re) (span : Re → CStr → CStr → CStr → Prop) :
    Prop :=
  ∀ (re : Re) (subject : CStr),
    (0 ≤ P.pcre_exec re subject 0 0 ↔
      ∃ s1 mid s2, subject = s1 ++ mid ++ s2 ∧ span re s1 mid s2) ∧
    (0 ≤ P.pcre_exec re subject 0 16 ↔
      ∃ mid s2, subject = mid ++ s2 ∧ span re [] mid s2)

/-- The pattern example\.com: the bytes of example, a backslash, a dot and the
bytes of com. -/
def pattern_example_com : CStr := cstr "example" ++ [92, 46] ++ cstr "com"

/-- The compiled form of the pattern example\.com: eleven literal bytes, each
taken once. -/
def items_example_com : List Item := (cstr "example.com").map (fun c => Item.one (Atom.lit c))

/-- The Backend that add_backend builds at address 1 for the rule
(example\.com, 10.0.0.5, 443) under fragment_pcre. -/
def rule_example_com : Backend (List Item) :=
  ⟨1, some pattern_example_com, some (cstr "10.0.0.5"), 443, some items_example_com⟩

/-- The Backend that add_backend builds at address 2 for the passthrough rule
(.*, *, 443) under fragment_pcre. -/
def rule_any_host : Backend (List Item) :=
  ⟨2, some (cstr ".*"), some (cstr "*"), 443, some [Item.many Atom.any]⟩

/-! ## Values used in the examples -/

/-- The Backend that add_backend builds at address 1 for the rule
(example, 10.0.0.5, 443) under literal_pcre. -/
def rule_example : Backend CStr :=
  ⟨1, some (cstr "example"), some (cstr "10.0.0.5"), 443, some (cstr "example")⟩

/-- The Backend that add_backend builds at address 2 for the rule
(www, 10.0.0.6, 80) under literal_pcre. -/
def rule_www : Backend CStr :=
  ⟨2, some (cstr "www"), some (cstr "10.0.0.6"), 80, some (cstr "www")⟩

/-- An allocator outcome in which calloc yields the block at address p and both
strdup calls succeed. -/
def alloc_ok (p : Nat) : Alloc := ⟨some p, true, true⟩

/-- The calls the loop of open_backend_socket makes for a candidate that fails:
socket alone when no socket is created, and socket, connect and close when the
connection is not made. -/
def attempt_calls (c : Candidate) : List Call :=
  if c.socket_ret < 0 then
    [Call.socket c.ai_family c.ai_socktype c.ai_protocol]
  else
    [Call.socket c.ai_family c.ai_socktype c.ai_protocol,
     Call.connect c.socket_ret c.ai_addr, Call.close c.socket_ret]

/-- The calls the loop makes for a run of failing candidates, in order. -/
def failed_calls : List Candidate → List Call
  | [] => []
  | c :: rest => attempt_calls c ++ failed_calls rest

/-- The cause of the failure of a candidate: socket when no socket is created,
connect otherwise. -/
def attempt_cause (c : Candidate) : String :=
  if c.socket_ret < 0 then "socket" else "connect"

/-- The value of sockfd after a failed attempt: the negative answer of socket,
or -1 once the socket of a failed connect is closed. -/
def failed_fd (c : Candidate) : Int :=
  if c.socket_ret < 0 then c.socket_ret else -1

/-- The calls of open_backend_socket that concern a candidate: socket and
connect. -/
def Call.is_attempt : Call → Bool
  | Call.socket _ _ _ => true
  | Call.connect _ _ => true
  | _ => false

/-- An IPv4 stream candidate (AF_INET 2, SOCK_STREAM 1, IPPROTO_TCP 6) with the
given sockaddr_in bytes and answers of socket and connect. -/
def inet_candidate (ai_addr : List Nat) (socket_ret connect_ret : Int) : Candidate :=
  ⟨2, 1, 6, ai_addr, socket_ret, connect_ret⟩

/-- The candidate 10.0.0.7:443, on which socket yields descriptor 5 and connect
is refused. -/
def cand_refusing : Candidate :=
  inet_candidate [2, 0, 1, 187, 10, 0, 0, 7, 0, 0, 0, 0, 0, 0, 0, 0] 5 (-1)

/-- The candidate 10.0.0.8:443, on which socket yields descriptor 6 and connect
succeeds. -/
def cand_accepting : Candidate :=
  inet_candidate [2, 0, 1, 187, 10, 0, 0, 8, 0, 0, 0, 0, 0, 0, 0, 0] 6 0

/-- The candidate 10.0.0.9:443, for which socket fails. -/
def cand_no_socket : Candidate :=
  inet_candidate [2, 0, 1, 187, 10, 0, 0, 9, 0, 0, 0, 0, 0, 0, 0, 0] (-1) 0

/-- The candidate 10.0.0.5:10000, on which socket yields descriptor 5 and connect
succeeds. -/
def cand_port_10000 : Candidate :=
  inet_candidate [2, 0, 39, 16, 10, 0, 0, 5, 0, 0, 0, 0, 0, 0, 0, 0] 5 0

/-- A resolver for the examples. It knows up.example:443 (two addresses, the
first refusing the connection, the second accepting it), down.example:443 (two
addresses, a refused connection and then a failed socket call) and the literal
10.0.0.5 at port 10000; every other lookup fails with EAI_NONAME (-2). -/
def example_net : Net where
  getaddrinfo := fun node service =>
    if node = some (cstr "up.example") ∧ service = cstr "443" then
      (0, [cand_refusing, cand_accepting])
    else if node = some (cstr "down.example") ∧ service = cstr "443" then
      (0, [cand_refusing, cand_no_socket])
    else if node = some (cstr "10.0.0.5") ∧ service = cstr "10000" then
      (0, [cand_port_10000])
    else (-2, [])

/-- A Backend for the rule (example, up.example, 443) under literal_pcre. -/
def rule_up : Backend CStr :=
  ⟨1, some (cstr "example"), some (cstr "up.example"), 443, some (cstr "example")⟩

/-- A Backend for the rule (example, down.example, 443) under literal_pcre. -/
def rule_down : Backend CStr :=
  ⟨1, some (cstr "example"), some (cstr "down.example"), 443, some (cstr "example")⟩

/-- A Backend for the rule (example, nowhere.example, 443) under literal_pcre. -/
def rule_nowhere : Backend CStr :=
  ⟨1, some (cstr "example"), some (cstr "nowhere.example"), 443, some (cstr "example")⟩

/-- A Backend for the rule (example, 10.0.0.5, 100000) under literal_pcre. -/
def rule_big_port : Backend CStr :=
  ⟨1, some (cstr "example"), some (cstr "10.0.0.5"), 100000, some (cstr "example")⟩

/-- A Backend for the passthrough rule (example, *, 443) under literal_pcre. -/
def rule_passthrough : Backend CStr :=
  ⟨1, some (cstr "example"), some (cstr "*"), 443, some (cstr "example")⟩

/-- The registry states that can be reached from the empty registry by calls of
add_backend and remove_backend, whatever their arguments and whatever the
allocator does. -/
inductive Reachable {Re : Type} (P : Pcre Re) : Backend_head Re → Prop where
  | empty : Reachable P []
  | add (head : Backend_head Re) (alloc : Alloc) (hostname address : CStr) (port : Int)
      (r : AddResult Re) :
      Reachable P head → add_backend P alloc head hostname address port = some r →
      Reachable P r.head
  | remove (head : Backend_head Re) (backend : Backend Re) (rest : Backend_head Re) :
      Reachable P head → remove_backend head backend = some rest → Reachable P rest

/-- A Backend for a third rule, (com, 10.0.0.7, 8443), at address 3 under
literal_pcre. -/
def rule_com : Backend CStr :=
  ⟨3, some (cstr "com"), some (cstr "10.0.0.7"), 8443, some (cstr "com")⟩

/-- The Backend that add_backend builds at address 2 when the rule
(example, 10.0.0.5, 443) is added a second time. -/
def rule_example_again : Backend CStr :=
  ⟨2, some (cstr "example"), some (cstr "10.0.0.5"), 443, some (cstr "example")⟩

/-! ## Lemmas on the lookup loop -/

theorem lookup_loop_none {Re : Type} (P : Pcre Re) (h : CStr) (l : List (Backend Re)) :
    lookup_loop P h l = none ↔ ∀ x ∈ l, ¬ matches_hostname P x h := by
  induction l with
  | nil => simp [lookup_loop]
  | cons a l ih =>
    by_cases ha : 0 ≤ exec_re P a.hostname_re h
    · simp [lookup_loop, ha, matches_hostname]
    · simp only [lookup_loop, ha, if_false, ih, List.mem_cons, forall_eq_or_imp]
      exact ⟨fun hl => ⟨ha, hl⟩, fun hl => hl.2⟩

theorem lookup_loop_skip {Re : Type} (P : Pcre Re) (h : CStr) (pre l : List (Backend Re))
    (hpre : ∀ x ∈ pre, ¬ matches_hostname P x h) :
    lookup_loop P h (pre ++ l) = lookup_loop P h l := by
  induction pre with
  | nil => rfl
  | cons a pre ih =>
    have ha : ¬ 0 ≤ exec_re P a.hostname_re h := hpre a (List.mem_cons_self _ _)
    have hrest : ∀ x ∈ pre, ¬ matches_hostname P x h :=
      fun x hx => hpre x (List.mem_cons_of_mem _ hx)
    simp only [List.cons_append, lookup_loop, ha, if_false]
    exact ih hrest

theorem lookup_loop_some {Re : Type} (P : Pcre Re) (h : CStr) (l : List (Backend Re))
    (b : Backend Re) :
    lookup_loop P h l = some b ↔
      ∃ pre post, l = pre ++ b :: post ∧ matches_hostname P b h ∧
        ∀ x ∈ pre, ¬ matches_hostname P x h := by
  constructor
  · intro hl
    induction l with
    | nil => simp [lookup_loop] at hl
    | cons a l ih =>
      by_cases ha : 0 ≤ exec_re P a.hostname_re h
      · simp only [lookup_loop, ha, if_true, Option.some.injEq] at hl
        subst hl
        exact ⟨[], l, rfl, ha, by simp⟩
      · simp only [lookup_loop, ha, if_false] at hl
        obtain ⟨pre, post, hsplit, hb, hpre⟩ := ih hl
        refine ⟨a :: pre, post, by simp [hsplit], hb, ?_⟩
        intro x hx
        rcases List.mem_cons.mp hx with hxa | hxp
        · subst hxa; exact ha
        · exact hpre x hxp
  · rintro ⟨pre, post, hsplit, hb, hpre⟩
    subst hsplit
    rw [lookup_loop_skip P h pre (b :: post) hpre]
    have hb' : 0 ≤ exec_re P b.hostname_re h := hb
    simp [lookup_loop, hb']

theorem lookup_backend_eq {Re : Type} (P : Pcre Re) (head : Backend_head Re)
    (hostname : Option CStr) :
    lookup_backend P head hostname = lookup_loop P (subject_of hostname) head := by
  cases hostname <;> rfl

/-! ## Lemmas on add_backend -/

theorem lower_loop_same (block r : List Nat) (h : lower_loop block = some r) : r = block := by
  induction block generalizing r with
  | nil => simp [lower_loop] at h
  | cons c rest ih =>
    by_cases hc : c = 0
    · subst hc
      cases hrest : lower_loop rest with
      | none => simp [lower_loop, hrest] at h
      | some rest' =>
        simp only [lower_loop, if_true, hrest, Option.map_some', Option.some.injEq] at h
        rw [← h, ih rest' hrest]
        simp [tolower]
    · simp only [lower_loop, hc, if_false, Option.some.injEq] at h
      exact h.symm

theorem lower_loop_strdup (address : CStr) (hne : address ≠ []) (hnul : 0 ∉ address) :
    lower_loop (strdup address) = some (strdup address) := by
  cases address with
  | nil => exact absurd rfl hne
  | cons c rest =>
    have hc : c ≠ 0 := fun h => hnul (by simp [h])
    simp [strdup, lower_loop, hc]

theorem c_string_strdup (s : CStr) (hnul : 0 ∉ s) : c_string (strdup s) = s := by
  induction s with
  | nil => simp [c_string, strdup]
  | cons c rest ih =>
    have hc : c ≠ 0 := fun h => hnul (by simp [h])
    have hrest : 0 ∉ rest := fun h => hnul (List.mem_cons_of_mem _ h)
    have := ih hrest
    simp only [c_string, strdup] at this
    simp only [c_string, strdup, List.cons_append]
    rw [List.takeWhile_cons_of_pos (by simpa using hc), this]

theorem add_backend_cases {Re : Type} (P : Pcre Re) (alloc : Alloc) (head : Backend_head Re)
    (hostname address : CStr) (port : Int) :
    (alloc.calloc = none ∧
      add_backend P alloc head hostname address port =
        some ⟨none, head, [Syslog.calloc_failed]⟩) ∨
    (alloc.calloc ≠ none ∧
      (alloc.strdup_hostname = false ∨ alloc.strdup_address = false) ∧
      add_backend P alloc head hostname address port =
        some ⟨none, head, [Syslog.strdup_failed]⟩) ∨
    (¬ alloc.fails ∧ lower_loop (strdup address) = none ∧
      add_backend P alloc head hostname address port = none) ∨
    (¬ alloc.fails ∧ lower_loop (strdup address) = some (strdup address) ∧
      P.pcre_compile hostname 0 = none ∧
      add_backend P alloc head hostname address port =
        some ⟨none, head, [Syslog.regex_compilation_failed]⟩) ∨
    (∃ p re, alloc.calloc = some p ∧ ¬ alloc.fails ∧
      lower_loop (strdup address) = some (strdup address) ∧
      P.pcre_compile hostname 0 = some re ∧
      add_backend P alloc head hostname address port =
        some ⟨some ⟨p, some hostname, some (c_string (strdup address)), port, some re⟩,
          head ++ [⟨p, some hostname, some (c_string (strdup address)), port, some re⟩],
          []⟩) := by
  unfold add_backend
  cases hc : alloc.calloc with
  | none => exact Or.inl ⟨rfl, rfl⟩
  | some p =>
    cases h1 : alloc.strdup_hostname with
    | false => exact Or.inr (Or.inl ⟨by simp, Or.inl rfl, by simp⟩)
    | true =>
      cases h2 : alloc.strdup_address with
      | false => exact Or.inr (Or.inl ⟨by simp, Or.inr rfl, by simp⟩)
      | true =>
        have hnf : ¬ alloc.fails := by simp [Alloc.fails, hc, h1, h2]
        cases hl : lower_loop (strdup address) with
        | none => exact Or.inr (Or.inr (Or.inl ⟨hnf, rfl, by simp⟩))
        | some block =>
          have hblock := lower_loop_same _ _ hl
          subst hblock
          cases hp : P.pcre_compile hostname 0 with
          | none => exact Or.inr (Or.inr (Or.inr (Or.inl ⟨hnf, rfl, rfl, by simp⟩)))
          | some re =>
            exact Or.inr (Or.inr (Or.inr (Or.inr ⟨p, re, rfl, hnf, rfl, rfl, by simp⟩)))

theorem add_backend_success {Re : Type} (P : Pcre Re) (alloc : Alloc) (head : Backend_head Re)
    (hostname address : CStr) (port : Int) (r : AddResult Re) (b : Backend Re)
    (hr : add_backend P alloc head hostname address port = some r) (hb : r.ret = some b) :
    ∃ p re, alloc.calloc = some p ∧ P.pcre_compile hostname 0 = some re ∧
      lower_loop (strdup address) = some (strdup address) ∧
      b = ⟨p, some hostname, some (c_string (strdup address)), port, some re⟩ ∧
      r.head = head ++ [b] ∧ r.log = [] := by
  rcases add_backend_cases P alloc head hostname address port with
    ⟨_, h⟩ | ⟨_, _, h⟩ | ⟨_, _, h⟩ | ⟨_, _, _, h⟩ | ⟨p, re, hc, _, hl, hp, h⟩
  · rw [h] at hr; cases hr; simp at hb
  · rw [h] at hr; cases hr; simp at hb
  · rw [h] at hr; cases hr
  · rw [h] at hr; cases hr; simp at hb
  · rw [h] at hr; cases hr
    simp only [Option.some.injEq] at hb
    subst hb
    exact ⟨p, re, hc, hp, hl, rfl, rfl, rfl⟩

theorem add_backend_failure {Re : Type} (P : Pcre Re) (alloc : Alloc) (head : Backend_head Re)
    (hostname address : CStr) (port : Int) (r : AddResult Re)
    (hr : add_backend P alloc head hostname address port = some r) (hb : r.ret = none) :
    r.head = head ∧
      ((alloc.calloc = none ∧ r.log = [Syslog.calloc_failed]) ∨
       (alloc.calloc ≠ none ∧
          (alloc.strdup_hostname = false ∨ alloc.strdup_address = false) ∧
          r.log = [Syslog.strdup_failed]) ∨
       (¬ alloc.fails ∧ P.pcre_compile hostname 0 = none ∧
          r.log = [Syslog.regex_compilation_failed])) := by
  rcases add_backend_cases P alloc head hostname address port with
    ⟨hc, h⟩ | ⟨hc, hs, h⟩ | ⟨_, _, h⟩ | ⟨hnf, _, hp, h⟩ | ⟨p, re, _, _, _, _, h⟩
  · rw [h] at hr; cases hr; exact ⟨rfl, Or.inl ⟨hc, rfl⟩⟩
  · rw [h] at hr; cases hr; exact ⟨rfl, Or.inr (Or.inl ⟨hc, hs, rfl⟩)⟩
  · rw [h] at hr; cases hr
  · rw [h] at hr; cases hr; exact ⟨rfl, Or.inr (Or.inr ⟨hnf, hp, rfl⟩)⟩
  · rw [h] at hr; cases hr; simp at hb

/-! ## Lemmas on the dispatcher -/

theorem dec_digits_fuel_length (fuel : Nat) :
    ∀ (n : Nat) (acc : List Nat) (k : Nat), 1 ≤ k → n < 10 ^ k →
      (dec_digits_fuel fuel n acc).length ≤ acc.length + k := by
  induction fuel with
  | zero =>
    intro n acc k _ _
    simp [dec_digits_fuel]
  | succ fuel ih =>
    intro n acc k hk hn
    by_cases h0 : n / 10 = 0
    · simp only [dec_digits_fuel, h0, if_true, List.length_cons]
      omega
    · simp only [dec_digits_fuel, h0, if_false]
      have hn10 : 10 ≤ n := by
        by_contra hlt
        exact h0 (Nat.div_eq_of_lt (by omega))
      have hk2 : 2 ≤ k := by
        by_contra hlt
        have hk1 : k = 1 := by omega
        subst hk1
        omega
      have hdiv : n / 10 < 10 ^ (k - 1) := by
        apply Nat.div_lt_of_lt_mul
        have hpow : 10 ^ k = 10 * 10 ^ (k - 1) := by
          rw [← pow_succ']
          congr 1
          omega
        omega
      have := ih (n / 10) ((48 + n % 10) :: acc) (k - 1) (by omega) hdiv
      simp only [List.length_cons] at this
      omega

theorem fmt_d_length (v : Int) (hlo : -9999 ≤ v) (hhi : v ≤ 99999) :
    (fmt_d v).length ≤ 5 := by
  unfold fmt_d dec_digits
  by_cases hneg : v < 0
  · simp only [hneg, if_true, List.length_cons]
    have := dec_digits_fuel_length (v.natAbs + 1) v.natAbs [] 4 (by omega) (by omega)
    simp only [List.length_nil] at this
    omega
  · simp only [hneg, if_false]
    have := dec_digits_fuel_length (v.natAbs + 1) v.natAbs [] 5 (by omega) (by omega)
    simp only [List.length_nil] at this
    omega

theorem snprintf_d_exact (v : Int) (hlo : -9999 ≤ v) (hhi : v ≤ 99999) :
    snprintf_d 6 v = fmt_d v := by
  unfold snprintf_d
  exact List.take_of_length_le (fmt_d_length v hlo hhi)

theorem connect_loop_skip (pre rest : List Candidate) :
    ∀ st : LoopState, (∀ x ∈ pre, x.socket_ret < 0 ∨ x.connect_ret < 0) →
      ∃ fd cause, connect_loop (pre ++ rest) st =
        connect_loop rest ⟨fd, cause, st.calls ++ failed_calls pre⟩ := by
  induction pre with
  | nil =>
    intro st _
    exact ⟨st.sockfd, st.cause, by simp [failed_calls]⟩
  | cons c pre ih =>
    intro st hpre
    have hc := hpre c (List.mem_cons_self _ _)
    have hrest : ∀ x ∈ pre, x.socket_ret < 0 ∨ x.connect_ret < 0 :=
      fun x hx => hpre x (List.mem_cons_of_mem _ hx)
    by_cases hs : c.socket_ret < 0
    · obtain ⟨fd, cause, h⟩ := ih
        ⟨c.socket_ret, some "socket",
          st.calls ++ [Call.socket c.ai_family c.ai_socktype c.ai_protocol]⟩ hrest
      refine ⟨fd, cause, ?_⟩
      have step : connect_loop (c :: (pre ++ rest)) st =
          connect_loop (pre ++ rest) ⟨c.socket_ret, some "socket",
            st.calls ++ [Call.socket c.ai_family c.ai_socktype c.ai_protocol]⟩ := by
        simp only [connect_loop, hs, if_true]
      rw [List.cons_append, step, h]
      simp [failed_calls, attempt_calls, hs]
    · have hconn : c.connect_ret < 0 := by
        rcases hc with h | h
        · exact absurd h hs
        · exact h
      obtain ⟨fd, cause, h⟩ := ih
        ⟨-1, some "connect",
          st.calls ++ [Call.socket c.ai_family c.ai_socktype c.ai_protocol] ++
            [Call.connect c.socket_ret c.ai_addr] ++ [Call.close c.socket_ret]⟩ hrest
      refine ⟨fd, cause, ?_⟩
      have step : connect_loop (c :: (pre ++ rest)) st =
          connect_loop (pre ++ rest) ⟨-1, some "connect",
            st.calls ++ [Call.socket c.ai_family c.ai_socktype c.ai_protocol] ++
              [Call.connect c.socket_ret c.ai_addr] ++ [Call.close c.socket_ret]⟩ := by
        simp only [connect_loop, hs, if_false, hconn, if_true]
      rw [List.cons_append, step, h]
      simp [failed_calls, attempt_calls, hs]

theorem connect_loop_last_fails (c : Candidate) (st : LoopState)
    (hc : c.socket_ret < 0 ∨ c.connect_ret < 0) :
    connect_loop [c] st =
      ⟨failed_fd c, some (attempt_cause c), st.calls ++ attempt_calls c⟩ := by
  by_cases hs : c.socket_ret < 0
  · simp [connect_loop, hs, failed_fd, attempt_cause, attempt_calls]
  · have hconn : c.connect_ret < 0 := by
      rcases hc with h | h
      · exact absurd h hs
      · exact h
    simp [connect_loop, hs, hconn, failed_fd, attempt_cause, attempt_calls]

theorem connect_loop_succeeds (c : Candidate) (post : List Candidate) (st : LoopState)
    (hs : 0 ≤ c.socket_ret) (hconn : 0 ≤ c.connect_ret) :
    connect_loop (c :: post) st =
      ⟨c.socket_ret, st.cause,
        st.calls ++ [Call.socket c.ai_family c.ai_socktype c.ai_protocol,
          Call.connect c.socket_ret c.ai_addr]⟩ := by
  have hs' : ¬ c.socket_ret < 0 := by omega
  have hconn' : ¬ c.connect_ret < 0 := by omega
  simp [connect_loop, hs', hconn']

theorem failed_fd_neg (c : Candidate) : failed_fd c < 0 := by
  unfold failed_fd
  split <;> omega

theorem failed_calls_append (l1 l2 : List Candidate) :
    failed_calls (l1 ++ l2) = failed_calls l1 ++ failed_calls l2 := by
  induction l1 with
  | nil => rfl
  | cons c l1 ih => simp [failed_calls, ih]

theorem connect_loop_calls (l : List Candidate) :
    ∀ st : LoopState, ∃ more, (connect_loop l st).calls = st.calls ++ more := by
  induction l with
  | nil => intro st; exact ⟨[], by simp [connect_loop]⟩
  | cons c l ih =>
    intro st
    by_cases hs : c.socket_ret < 0
    · obtain ⟨more, h⟩ := ih ⟨c.socket_ret, some "socket",
        st.calls ++ [Call.socket c.ai_family c.ai_socktype c.ai_protocol]⟩
      refine ⟨Call.socket c.ai_family c.ai_socktype c.ai_protocol :: more, ?_⟩
      simp only [connect_loop, hs, if_true]
      rw [h]
      simp
    · by_cases hconn : c.connect_ret < 0
      · obtain ⟨more, h⟩ := ih ⟨-1, some "connect",
          st.calls ++ [Call.socket c.ai_family c.ai_socktype c.ai_protocol] ++
            [Call.connect c.socket_ret c.ai_addr] ++ [Call.close c.socket_ret]⟩
        refine ⟨Call.socket c.ai_family c.ai_socktype c.ai_protocol ::
          Call.connect c.socket_ret c.ai_addr :: Call.close c.socket_ret :: more, ?_⟩
        simp only [connect_loop, hs, if_false, hconn, if_true]
        rw [h]
        simp
      · exact ⟨[Call.socket c.ai_family c.ai_socktype c.ai_protocol,
          Call.connect c.socket_ret c.ai_addr], by simp [connect_loop, hs, hconn]⟩

theorem open_backend_socket_calls {Re : Type} (N : Net) (b : Backend Re)
    (req_hostname : Option CStr) (address : CStr) (haddr : b.address = some address) :
    ∃ ret more, open_backend_socket N b req_hostname =
      some ⟨ret, Call.getaddrinfo (target_hostname address req_hostname)
        (snprintf_d 6 b.port) :: more⟩ := by
  cases hg : N.getaddrinfo (target_hostname address req_hostname) (snprintf_d 6 b.port) with
  | mk error results =>
    by_cases herr : error = 0
    · obtain ⟨more, hcalls⟩ := connect_loop_calls results
        ⟨-1, none,
          [Call.getaddrinfo (target_hostname address req_hostname) (snprintf_d 6 b.port)]⟩
      simp only [open_backend_socket, haddr, hg, herr, ne_eq, not_true_eq_false, if_false]
      generalize connect_loop results
        ⟨-1, none,
          [Call.getaddrinfo (target_hostname address req_hostname) (snprintf_d 6 b.port)]⟩ = st
        at hcalls
      by_cases hneg : st.sockfd < 0
      · exact ⟨st.sockfd,
          more ++ [Call.syslog (Syslog.cause_error st.cause), Call.freeaddrinfo],
          by simp [hneg, hcalls]⟩
      · exact ⟨st.sockfd, more ++ [Call.freeaddrinfo], by simp [hneg, hcalls]⟩
    · simp only [open_backend_socket, haddr, hg, herr, ne_eq, not_false_eq_true, if_true]
      exact ⟨-1, [Call.syslog (Syslog.lookup_error error)], by simp⟩

/-! ## Registry lookup -/

/-- Claim C1: lookup_backend returns a Backend b exactly when b sits in the
registry, its matcher matches the hostname and no Backend before it in insertion
order matches; and it returns NULL exactly when no Backend of the registry
matches the hostname. A NULL hostname counts as the empty string. -/
theorem lookup_backend_first_match {Re : Type} (P : Pcre Re) (head : Backend_head Re)
    (hostname : Option CStr) :
    (∀ b, lookup_backend P head hostname = some b ↔
      ∃ pre post, head = pre ++ b :: post ∧
        matches_hostname P b (subject_of hostname) ∧
        ∀ x ∈ pre, ¬ matches_hostname P x (subject_of hostname)) ∧
    (lookup_backend P head hostname = none ↔
      ∀ x ∈ head, ¬ matches_hostname P x (subject_of hostname)) := by
  rw [lookup_backend_eq]
  exact ⟨fun b => lookup_loop_some P _ head b, lookup_loop_none P _ head⟩

/-! ## Adding to the registry -/

/-- Claim C4, as stated, fails: with the rule (example, 10.0.0.5, 443) already
registered, add_backend of the rule (www, 10.0.0.6, 80) succeeds and its pattern
matches www.example.com, yet lookup_backend of www.example.com returns the
earlier Backend and not the one add_backend returned. -/
theorem add_then_lookup_earlier_rule_wins :
    add_backend literal_pcre (alloc_ok 2) [rule_example] (cstr "www") (cstr "10.0.0.6") 80 =
        some ⟨some rule_www, [rule_example, rule_www], []⟩ ∧
      pattern_matches literal_pcre (cstr "www") (cstr "www.example.com") ∧
      lookup_backend literal_pcre [rule_example, rule_www] (some (cstr "www.example.com")) =
        some rule_example ∧
      lookup_backend literal_pcre [rule_example, rule_www] (some (cstr "www.example.com")) ≠
        some rule_www :=
  ⟨by decide, ⟨cstr "www", by decide, by decide⟩, by decide, by decide⟩

/-- Claim C4, amended: after a successful add_backend, lookup_backend on a
hostname that the new pattern matches and that no Backend registered before the
call matches returns exactly the Backend that add_backend returned. -/
theorem add_then_lookup_unmatched {Re : Type} (P : Pcre Re) (alloc : Alloc)
    (head : Backend_head Re) (hostname address : CStr) (port : Int)
    (r : AddResult Re) (b : Backend Re) (h : CStr)
    (hr : add_backend P alloc head hostname address port = some r)
    (hb : r.ret = some b)
    (hm : pattern_matches P hostname h)
    (hno : ∀ x ∈ head, ¬ matches_hostname P x h) :
    lookup_backend P r.head (some h) = some b := by
  obtain ⟨p, re, _, hp, _, hbe, hhead, _⟩ :=
    add_backend_success P alloc head hostname address port r b hr hb
  obtain ⟨re', hp', hexec⟩ := hm
  rw [hp] at hp'
  cases hp'
  rw [lookup_backend_eq, hhead]
  refine (lookup_loop_some P _ _ b).mpr ⟨head, [], rfl, ?_, hno⟩
  rw [hbe]
  exact hexec

/-- Witness for C4: the rule (example, 10.0.0.5, 443) added to the empty
registry is what lookup_backend returns for www.example.com. -/
theorem add_then_lookup_unmatched_witness :
    add_backend literal_pcre (alloc_ok 1) [] (cstr "example") (cstr "10.0.0.5") 443 =
        some ⟨some rule_example, [rule_example], []⟩ ∧
      pattern_matches literal_pcre (cstr "example") (cstr "www.example.com") ∧
      lookup_backend literal_pcre [rule_example] (some (cstr "www.example.com")) =
        some rule_example :=
  ⟨by decide, ⟨cstr "example", by decide, by decide⟩,
    add_then_lookup_unmatched literal_pcre (alloc_ok 1) [] (cstr "example") (cstr "10.0.0.5")
      443 ⟨some rule_example, [rule_example], []⟩ rule_example (cstr "www.example.com")
      (by decide) rfl ⟨cstr "example", by decide, by decide⟩ (by simp)⟩

/-- Claim C5: from a registry in which no Backend matches hostname h, after a
successful add_backend of pattern A and then of pattern B, both matching h,
lookup_backend of h returns the Backend created for A; and that Backend is not
the one created for B, the block calloc returned for B being another one than
the block of A, which is still in use. -/
theorem insertion_order_precedence {Re : Type} (P : Pcre Re) (allocA allocB : Alloc)
    (head : Backend_head Re) (patA addrA : CStr) (portA : Int) (patB addrB : CStr)
    (portB : Int) (rA rB : AddResult Re) (bA bB : Backend Re) (h : CStr)
    (hno : ∀ x ∈ head, ¬ matches_hostname P x h)
    (hrA : add_backend P allocA head patA addrA portA = some rA)
    (hbA : rA.ret = some bA)
    (hrB : add_backend P allocB rA.head patB addrB portB = some rB)
    (hbB : rB.ret = some bB)
    (hmA : pattern_matches P patA h)
    (_hmB : pattern_matches P patB h)
    (hfresh : allocB.calloc ≠ allocA.calloc) :
    lookup_backend P rB.head (some h) = some bA ∧ bA ≠ bB := by
  obtain ⟨pA, reA, hcA, hpA, _, hbeA, hheadA, _⟩ :=
    add_backend_success P allocA head patA addrA portA rA bA hrA hbA
  obtain ⟨pB, reB, hcB, _, _, hbeB, hheadB, _⟩ :=
    add_backend_success P allocB rA.head patB addrB portB rB bB hrB hbB
  obtain ⟨re', hp', hexec⟩ := hmA
  rw [hpA] at hp'
  cases hp'
  constructor
  · rw [lookup_backend_eq, hheadB, hheadA, List.append_assoc]
    refine (lookup_loop_some P _ _ bA).mpr ⟨head, [bB], rfl, ?_, hno⟩
    rw [hbeA]
    exact hexec
  · intro hAB
    apply hfresh
    rw [hcA, hcB]
    have hptr : bA.ptr = bB.ptr := by rw [hAB]
    rw [hbeA, hbeB] at hptr
    exact congrArg some hptr.symm

/-- Witness for C5: on the empty registry, the rule with pattern example is
added before the rule with pattern www, and www.example.com is routed to the
first. -/
theorem insertion_order_precedence_witness :
    add_backend literal_pcre (alloc_ok 1) [] (cstr "example") (cstr "10.0.0.5") 443 =
        some ⟨some rule_example, [rule_example], []⟩ ∧
      add_backend literal_pcre (alloc_ok 2) [rule_example] (cstr "www") (cstr "10.0.0.6") 80 =
        some ⟨some rule_www, [rule_example, rule_www], []⟩ ∧
      lookup_backend literal_pcre [rule_example, rule_www] (some (cstr "www.example.com")) =
        some rule_example ∧
      rule_example ≠ rule_www :=
  ⟨by decide, by decide,
    insertion_order_precedence literal_pcre (alloc_ok 1) (alloc_ok 2) []
      (cstr "example") (cstr "10.0.0.5") 443 (cstr "www") (cstr "10.0.0.6") 80
      ⟨some rule_example, [rule_example], []⟩ ⟨some rule_www, [rule_example, rule_www], []⟩
      rule_example rule_www (cstr "www.example.com")
      (by simp) (by decide) rfl (by decide) rfl
      ⟨cstr "example", by decide, by decide⟩ ⟨cstr "www", by decide, by decide⟩
      (by decide)⟩

/-- Claim C6: whenever add_backend returns NULL the registry is exactly the
sequence it was before the call; and it does return NULL, with the registry
untouched, whenever an allocation fails, and whenever the pattern fails to
compile for an address that is a non-empty C string. -/
theorem add_backend_failure_keeps_registry {Re : Type} (P : Pcre Re) (alloc : Alloc)
    (head : Backend_head Re) (hostname address : CStr) (port : Int) :
    (∀ r, add_backend P alloc head hostname address port = some r →
      r.ret = none → r.head = head) ∧
    (alloc.fails ∨ (address ≠ [] ∧ 0 ∉ address ∧ P.pcre_compile hostname 0 = none) →
      ∃ log, add_backend P alloc head hostname address port = some ⟨none, head, log⟩) := by
  constructor
  · intro r hr hb
    exact (add_backend_failure P alloc head hostname address port r hr hb).1
  · intro hcause
    rcases add_backend_cases P alloc head hostname address port with
      ⟨_, h⟩ | ⟨_, _, h⟩ | ⟨hnf, hl, _⟩ | ⟨_, _, _, h⟩ | ⟨p, re, _, hnf, _, hp, _⟩
    · exact ⟨_, h⟩
    · exact ⟨_, h⟩
    · rcases hcause with hf | ⟨hne, hnul, _⟩
      · exact absurd hf hnf
      · rw [lower_loop_strdup address hne hnul] at hl
        cases hl
    · exact ⟨_, h⟩
    · rcases hcause with hf | ⟨_, _, hnone⟩
      · exact absurd hf hnf
      · rw [hp] at hnone
        cases hnone

/-- Witness for C6: with one rule registered, add_backend of the pattern "(",
which does not compile, returns NULL and leaves that one rule registered. -/
theorem add_backend_failure_keeps_registry_witness :
    literal_pcre.pcre_compile (cstr "(") 0 = none ∧
      add_backend literal_pcre (alloc_ok 2) [rule_example] (cstr "(") (cstr "10.0.0.6") 80 =
        some ⟨none, [rule_example], [Syslog.regex_compilation_failed]⟩ ∧
      ∃ log, add_backend literal_pcre (alloc_ok 2) [rule_example] (cstr "(")
        (cstr "10.0.0.6") 80 = some ⟨none, [rule_example], log⟩ :=
  ⟨by decide, by decide,
    (add_backend_failure_keeps_registry literal_pcre (alloc_ok 2) [rule_example] (cstr "(")
      (cstr "10.0.0.6") 80).2 (Or.inr ⟨by decide, by decide, by decide⟩)⟩

/-- Claim C7 fails on the code: add_backend of the address Example.COM succeeds
and stores Example.COM, not its lower-case form example.com. The loop that is
meant to lower the address runs while the byte is NUL, so it stops at the first
byte. -/
theorem add_backend_keeps_address_case :
    add_backend literal_pcre (alloc_ok 1) [] (cstr "example") (cstr "Example.COM") 443 =
        some ⟨some ⟨1, some (cstr "example"), some (cstr "Example.COM"), 443,
                some (cstr "example")⟩,
              [⟨1, some (cstr "example"), some (cstr "Example.COM"), 443,
                some (cstr "example")⟩], []⟩ ∧
      lower_case (cstr "Example.COM") = cstr "example.com" ∧
      cstr "Example.COM" ≠ lower_case (cstr "Example.COM") :=
  ⟨by decide, by decide, by decide⟩

/-- Claim C8, as stated, fails: add_backend returns the same result, NULL, when
calloc fails and when the pattern "(" fails to compile. -/
theorem add_backend_failures_return_alike :
    (alloc_ok 1).fails = False ∧
      (add_backend literal_pcre ⟨none, true, true⟩ [] (cstr "example") (cstr "10.0.0.5")
          443).map (fun r => r.ret) = some none ∧
      (add_backend literal_pcre (alloc_ok 1) [] (cstr "(") (cstr "10.0.0.5")
          443).map (fun r => r.ret) = some none ∧
      (add_backend literal_pcre ⟨none, true, true⟩ [] (cstr "example") (cstr "10.0.0.5")
          443).map (fun r => r.ret) =
        (add_backend literal_pcre (alloc_ok 1) [] (cstr "(") (cstr "10.0.0.5")
          443).map (fun r => r.ret) :=
  ⟨by simp [Alloc.fails, alloc_ok], by decide, by decide, by decide⟩

/-- Claim C8, amended: for an address that is a non-empty C string, and for any
address when an allocation fails, add_backend returns; it returns NULL exactly
when an allocation fails or the pattern does not compile, the same value for
either cause; the cause shows only in the message logged at LOG_CRIT, which is
"calloc failed" or "strdup failed" exactly when an allocation failed and "Regex
compilation failed" exactly when the allocations succeeded and the pattern did
not compile. -/
theorem add_backend_failure_cause_in_log {Re : Type} (P : Pcre Re) (alloc : Alloc)
    (head : Backend_head Re) (hostname address : CStr) (port : Int)
    (hvalid : alloc.fails ∨ (address ≠ [] ∧ 0 ∉ address)) :
    ∃ r, add_backend P alloc head hostname address port = some r ∧
      (r.ret = none ↔ (alloc.fails ∨ P.pcre_compile hostname 0 = none)) ∧
      (r.ret = none →
        (alloc.fails ↔ (r.log = [Syslog.calloc_failed] ∨ r.log = [Syslog.strdup_failed])) ∧
        ((¬ alloc.fails ∧ P.pcre_compile hostname 0 = none) ↔
          r.log = [Syslog.regex_compilation_failed])) := by
  rcases add_backend_cases P alloc head hostname address port with
    ⟨hc, h⟩ | ⟨_, hs, h⟩ | ⟨hnf, hl, _⟩ | ⟨hnf, _, hp, h⟩ | ⟨p, re, _, hnf, _, hp, h⟩
  · refine ⟨_, h, ?_⟩
    have hf : alloc.fails := Or.inl hc
    simp [hf]
  · refine ⟨_, h, ?_⟩
    have hf : alloc.fails := Or.inr hs
    simp [hf]
  · rcases hvalid with hf | ⟨hne, hnul⟩
    · exact absurd hf hnf
    · rw [lower_loop_strdup address hne hnul] at hl
      cases hl
  · refine ⟨_, h, ?_⟩
    simp [hnf, hp]
  · refine ⟨_, h, ?_⟩
    simp [hnf, hp]

/-- Witness for C8: the pattern "(" with working allocations is refused with the
message for a failed compilation. -/
theorem add_backend_failure_cause_in_log_witness :
    add_backend literal_pcre (alloc_ok 1) [] (cstr "(") (cstr "10.0.0.5") 443 =
        some ⟨none, [], [Syslog.regex_compilation_failed]⟩ ∧
      ∃ r, add_backend literal_pcre (alloc_ok 1) [] (cstr "(") (cstr "10.0.0.5") 443 =
          some r ∧
        (r.ret = none ↔
          ((alloc_ok 1).fails ∨ literal_pcre.pcre_compile (cstr "(") 0 = none)) ∧
        (r.ret = none →
          ((alloc_ok 1).fails ↔
            (r.log = [Syslog.calloc_failed] ∨ r.log = [Syslog.strdup_failed])) ∧
          ((¬ (alloc_ok 1).fails ∧ literal_pcre.pcre_compile (cstr "(") 0 = none) ↔
            r.log = [Syslog.regex_compilation_failed])) :=
  ⟨by decide,
    add_backend_failure_cause_in_log literal_pcre (alloc_ok 1) [] (cstr "(")
      (cstr "10.0.0.5") 443 (Or.inr ⟨by decide, by decide⟩)⟩

/-! ## Connection dispatcher -/

/-- Claim C2: when the resolver returns a candidate list in which candidate c is
the first for which both socket and connect succeed, open_backend_socket returns
the socket of c, a non-negative descriptor, and its calls are the lookup, the
failed attempts on the candidates before c, socket and connect for c, and
freeaddrinfo: nothing is attempted on a candidate after c and no error is
logged. -/
theorem open_backend_socket_first_success {Re : Type} (N : Net) (b : Backend Re)
    (req_hostname : Option CStr) (address : CStr) (pre : List Candidate) (c : Candidate)
    (post : List Candidate)
    (haddr : b.address = some address)
    (hres : N.getaddrinfo (target_hostname address req_hostname) (snprintf_d 6 b.port) =
      (0, pre ++ c :: post))
    (hpre : ∀ x ∈ pre, x.socket_ret < 0 ∨ x.connect_ret < 0)
    (hsock : 0 ≤ c.socket_ret) (hconn : 0 ≤ c.connect_ret) :
    open_backend_socket N b req_hostname =
      some ⟨c.socket_ret,
        [Call.getaddrinfo (target_hostname address req_hostname) (snprintf_d 6 b.port)] ++
          failed_calls pre ++
          [Call.socket c.ai_family c.ai_socktype c.ai_protocol,
            Call.connect c.socket_ret c.ai_addr, Call.freeaddrinfo]⟩ := by
  obtain ⟨fd, cause, hskip⟩ := connect_loop_skip pre (c :: post)
    ⟨-1, none, [Call.getaddrinfo (target_hostname address req_hostname) (snprintf_d 6 b.port)]⟩
    hpre
  have hnot : ¬ c.socket_ret < 0 := by omega
  simp only [open_backend_socket, haddr, hres, ne_eq, not_true_eq_false, if_false, hskip,
    connect_loop_succeeds c post _ hsock hconn, hnot]
  simp

/-- Witness for C2: the resolver returns two candidates for up.example:443, the
first refuses the connection (its socket, descriptor 5, is closed) and the second
accepts; the call returns the descriptor of the second, 6. -/
theorem open_backend_socket_first_success_witness :
    example_net.getaddrinfo (target_hostname (cstr "up.example") none)
        (snprintf_d 6 rule_up.port) = (0, [cand_refusing] ++ cand_accepting :: []) ∧
      open_backend_socket example_net rule_up none =
        some ⟨6, [Call.getaddrinfo (some (cstr "up.example")) (cstr "443"),
          Call.socket 2 1 6, Call.connect 5 cand_refusing.ai_addr, Call.close 5,
          Call.socket 2 1 6, Call.connect 6 cand_accepting.ai_addr, Call.freeaddrinfo]⟩ :=
  ⟨by decide,
    open_backend_socket_first_success example_net rule_up none (cstr "up.example")
      [cand_refusing] cand_accepting [] rfl (by decide) (by decide) (by decide) (by decide)⟩

/-- Claim C3, as stated, fails on the port: for a Backend with address 10.0.0.5
and port 100000 the resolver is handed the service 10000, which is not the
decimal text of the port of the Backend but that of port 10000, and the call
goes on to connect there. -/
theorem open_backend_socket_cuts_long_port :
    open_backend_socket example_net rule_big_port (some (cstr "www.example.com")) =
        some ⟨5, [Call.getaddrinfo (some (cstr "10.0.0.5")) (cstr "10000"),
          Call.socket 2 1 6, Call.connect 5 cand_port_10000.ai_addr, Call.freeaddrinfo]⟩ ∧
      rule_big_port.port = 100000 ∧
      fmt_d 100000 = cstr "100000" ∧
      fmt_d 10000 = cstr "10000" ∧
      cstr "10000" ≠ fmt_d rule_big_port.port :=
  ⟨by decide, by decide, by decide, by decide, by decide⟩

/-- Claim C3, amended: for a Backend with an address, open_backend_socket starts
by handing the resolver a host and a service. The host is the requested
hostname when the address of the Backend is exactly "*" and the address of the
Backend otherwise. The service is the decimal text of the port of the Backend
cut to its first five bytes, which is the whole text whenever the port lies
between -9999 and 99999, so for every port from 1 to 65535. -/
theorem open_backend_socket_resolver_arguments {Re : Type} (N : Net) (b : Backend Re)
    (req_hostname : Option CStr) (address : CStr) (haddr : b.address = some address) :
    ∃ r node service, open_backend_socket N b req_hostname = some r ∧
      r.calls.head? = some (Call.getaddrinfo node service) ∧
      (address = cstr "*" → node = req_hostname) ∧
      (address ≠ cstr "*" → node = some address ∧ node ≠ some (cstr "*")) ∧
      service = (fmt_d b.port).take 5 ∧
      (-9999 ≤ b.port → b.port ≤ 99999 → service = fmt_d b.port) := by
  obtain ⟨ret, more, hr⟩ := open_backend_socket_calls N b req_hostname address haddr
  refine ⟨⟨ret, Call.getaddrinfo (target_hostname address req_hostname)
    (snprintf_d 6 b.port) :: more⟩, target_hostname address req_hostname,
    snprintf_d 6 b.port, hr, rfl, ?_, ?_, rfl, snprintf_d_exact b.port⟩
  · intro h; simp [target_hostname, h]
  · intro h; simp [target_hostname, h]

/-- Witness for C3: the passthrough rule (example, *, 443), asked for
up.example, hands the resolver up.example and the service 443. -/
theorem open_backend_socket_resolver_arguments_witness :
    rule_passthrough.address = some (cstr "*") ∧
      ∃ r node service,
        open_backend_socket example_net rule_passthrough (some (cstr "up.example")) = some r ∧
        r.calls.head? = some (Call.getaddrinfo node service) ∧
        (cstr "*" = cstr "*" → node = some (cstr "up.example")) ∧
        (cstr "*" ≠ cstr "*" → node = some (cstr "*") ∧ node ≠ some (cstr "*")) ∧
        service = (fmt_d rule_passthrough.port).take 5 ∧
        (-9999 ≤ rule_passthrough.port → rule_passthrough.port ≤ 99999 →
          service = fmt_d rule_passthrough.port) :=
  ⟨rfl, open_backend_socket_resolver_arguments example_net rule_passthrough
    (some (cstr "up.example")) (cstr "*") rfl⟩

/-- Claim C9: when the resolver returns a non-empty candidate list and every
candidate fails, open_backend_socket returns a negative descriptor, its calls
are the lookup, the failed attempts on all candidates in order, one LOG_ERR
message and freeaddrinfo, and the cause in that message is the one of the last
candidate: socket when its socket call failed, connect when its connect
failed, whatever happened to the candidates before it. -/
theorem open_backend_socket_all_fail {Re : Type} (N : Net) (b : Backend Re)
    (req_hostname : Option CStr) (address : CStr) (pre : List Candidate) (c : Candidate)
    (haddr : b.address = some address)
    (hres : N.getaddrinfo (target_hostname address req_hostname) (snprintf_d 6 b.port) =
      (0, pre ++ [c]))
    (hall : ∀ x ∈ pre ++ [c], x.socket_ret < 0 ∨ x.connect_ret < 0) :
    ∃ r cause, open_backend_socket N b req_hostname = some r ∧ r.ret < 0 ∧
      r.calls =
        [Call.getaddrinfo (target_hostname address req_hostname) (snprintf_d 6 b.port)] ++
          failed_calls (pre ++ [c]) ++
          [Call.syslog (Syslog.cause_error (some cause)), Call.freeaddrinfo] ∧
      (c.socket_ret < 0 → cause = "socket") ∧
      (0 ≤ c.socket_ret → cause = "connect") := by
  have hpre : ∀ x ∈ pre, x.socket_ret < 0 ∨ x.connect_ret < 0 :=
    fun x hx => hall x (List.mem_append_left _ hx)
  have hc : c.socket_ret < 0 ∨ c.connect_ret < 0 :=
    hall c (List.mem_append_right _ (List.mem_singleton_self c))
  obtain ⟨fd, cause, hskip⟩ := connect_loop_skip pre [c]
    ⟨-1, none, [Call.getaddrinfo (target_hostname address req_hostname) (snprintf_d 6 b.port)]⟩
    hpre
  refine ⟨⟨failed_fd c,
    [Call.getaddrinfo (target_hostname address req_hostname) (snprintf_d 6 b.port)] ++
      failed_calls (pre ++ [c]) ++
      [Call.syslog (Syslog.cause_error (some (attempt_cause c))), Call.freeaddrinfo]⟩,
    attempt_cause c, ?_, failed_fd_neg c, rfl, ?_, ?_⟩
  · simp only [open_backend_socket, haddr, hres, ne_eq, not_true_eq_false, if_false, hskip,
      connect_loop_last_fails c _ hc, failed_fd_neg c, if_true, failed_calls_append]
    simp [failed_calls]
  · intro h; simp [attempt_cause, h]
  · intro h
    have h' : ¬ c.socket_ret < 0 := by omega
    simp [attempt_cause, h']

/-- Witness for C9: of the two candidates of down.example:443 the first fails in
connect and the second in socket; the call returns -1 and logs the cause
socket. -/
theorem open_backend_socket_all_fail_witness :
    example_net.getaddrinfo (target_hostname (cstr "down.example") none)
        (snprintf_d 6 rule_down.port) = (0, [cand_refusing] ++ [cand_no_socket]) ∧
      open_backend_socket example_net rule_down none =
        some ⟨-1, [Call.getaddrinfo (some (cstr "down.example")) (cstr "443"),
          Call.socket 2 1 6, Call.connect 5 cand_refusing.ai_addr, Call.close 5,
          Call.socket 2 1 6, Call.syslog (Syslog.cause_error (some "socket")),
          Call.freeaddrinfo]⟩ ∧
      ∃ r cause, open_backend_socket example_net rule_down none = some r ∧ r.ret < 0 ∧
        r.calls =
          [Call.getaddrinfo (target_hostname (cstr "down.example") none)
            (snprintf_d 6 rule_down.port)] ++
            failed_calls ([cand_refusing] ++ [cand_no_socket]) ++
            [Call.syslog (Syslog.cause_error (some cause)), Call.freeaddrinfo] ∧
        (cand_no_socket.socket_ret < 0 → cause = "socket") ∧
        (0 ≤ cand_no_socket.socket_ret → cause = "connect") :=
  ⟨by decide, by decide,
    open_backend_socket_all_fail example_net rule_down none (cstr "down.example")
      [cand_refusing] cand_no_socket rfl (by decide) (by decide)⟩

/-- Claim C10: when getaddrinfo fails for the effective target host and port,
open_backend_socket returns -1 and its only calls are that lookup and the
LOG_NOTICE message: no socket is created and no connect is issued. -/
theorem open_backend_socket_resolution_failure {Re : Type} (N : Net) (b : Backend Re)
    (req_hostname : Option CStr) (address : CStr) (error : Int) (results : List Candidate)
    (haddr : b.address = some address)
    (hres : N.getaddrinfo (target_hostname address req_hostname) (snprintf_d 6 b.port) =
      (error, results))
    (herr : error ≠ 0) :
    ∃ r, open_backend_socket N b req_hostname = some r ∧ r.ret = -1 ∧
      r.calls =
        [Call.getaddrinfo (target_hostname address req_hostname) (snprintf_d 6 b.port),
          Call.syslog (Syslog.lookup_error error)] ∧
      ∀ call ∈ r.calls, call.is_attempt = false := by
  refine ⟨⟨-1,
    [Call.getaddrinfo (target_hostname address req_hostname) (snprintf_d 6 b.port),
      Call.syslog (Syslog.lookup_error error)]⟩, ?_, rfl, rfl, ?_⟩
  · simp only [open_backend_socket, haddr, hres, ne_eq, herr, not_false_eq_true, if_true]
    simp
  · intro call hcall
    simp only [List.mem_cons, List.mem_singleton, List.not_mem_nil, or_false] at hcall
    rcases hcall with h | h <;> subst h <;> rfl

/-- Witness for C10: nowhere.example does not resolve; the call returns -1 after
the lookup and one message. -/
theorem open_backend_socket_resolution_failure_witness :
    example_net.getaddrinfo (target_hostname (cstr "nowhere.example") none)
        (snprintf_d 6 rule_nowhere.port) = (-2, []) ∧
      ∃ r, open_backend_socket example_net rule_nowhere none = some r ∧ r.ret = -1 ∧
        r.calls =
          [Call.getaddrinfo (target_hostname (cstr "nowhere.example") none)
            (snprintf_d 6 rule_nowhere.port),
            Call.syslog (Syslog.lookup_error (-2))] ∧
        ∀ call ∈ r.calls, call.is_attempt = false :=
  ⟨by decide,
    open_backend_socket_resolution_failure example_net rule_nowhere none
      (cstr "nowhere.example") (-2) [] rfl (by decide) (by decide)⟩

/-! ## Lemmas on remove_backend -/

theorem stailq_remove_split {Re : Type} (b : Backend Re) (pre post : List (Backend Re))
    (hpre : ∀ x ∈ pre, x.ptr ≠ b.ptr) :
    stailq_remove b.ptr (pre ++ b :: post) = some (pre ++ post) := by
  induction pre with
  | nil => simp [stailq_remove]
  | cons a pre ih =>
    have ha : a.ptr ≠ b.ptr := hpre a (List.mem_cons_self _ _)
    have hrest : ∀ x ∈ pre, x.ptr ≠ b.ptr :=
      fun x hx => hpre x (List.mem_cons_of_mem _ hx)
    simp [stailq_remove, ha, ih hrest]

theorem nodup_ptr_split {Re : Type} (b : Backend Re) (pre post : List (Backend Re))
    (hptr : ((pre ++ b :: post).map Backend.ptr).Nodup) :
    ∀ x ∈ pre ++ post, x.ptr ≠ b.ptr := by
  intro x hx hxb
  rw [List.map_append, List.map_cons, List.nodup_append] at hptr
  obtain ⟨_, hpost, hdisj⟩ := hptr
  rw [List.nodup_cons] at hpost
  rcases List.mem_append.mp hx with hxpre | hxpost
  · exact hdisj (List.mem_map_of_mem Backend.ptr hxpre) (by rw [hxb]; simp)
  · exact hpost.1 (by rw [← hxb]; exact List.mem_map_of_mem Backend.ptr hxpost)

theorem stailq_remove_mem {Re : Type} (elm : Nat) (l rest : List (Backend Re))
    (h : stailq_remove elm l = some rest) : ∀ x ∈ rest, x ∈ l := by
  induction l generalizing rest with
  | nil => simp [stailq_remove] at h
  | cons a l ih =>
    by_cases ha : a.ptr = elm
    · simp only [stailq_remove, ha, if_true, Option.some.injEq] at h
      subst h
      exact fun x hx => List.mem_cons_of_mem _ hx
    · cases hl : stailq_remove elm l with
      | none => simp [stailq_remove, ha, hl] at h
      | some rest' =>
        simp only [stailq_remove, ha, if_false, hl, Option.map_some',
          Option.some.injEq] at h
        subst h
        intro x hx
        rcases List.mem_cons.mp hx with hxa | hxr
        · subst hxa; exact List.mem_cons_self _ _
        · exact List.mem_cons_of_mem _ (ih rest' hl x hxr)

/-! ## Removing from the registry -/

/-- Claim C11: for a registry whose Backends sit at distinct addresses, a member b
and a hostname h that b matches and no other Backend of the registry matches,
remove_backend of b returns, and lookup_backend of h on the registry it leaves
returns NULL. -/
theorem remove_then_lookup_no_match {Re : Type} (P : Pcre Re) (head : Backend_head Re)
    (b : Backend Re) (h : CStr)
    (hmem : b ∈ head)
    (hptr : (head.map Backend.ptr).Nodup)
    (_hb : matches_hostname P b h)
    (hothers : ∀ x ∈ head, x ≠ b → ¬ matches_hostname P x h) :
    ∃ rest, remove_backend head b = some rest ∧ lookup_backend P rest (some h) = none := by
  obtain ⟨pre, post, hsplit⟩ := List.append_of_mem hmem
  subst hsplit
  have hne := nodup_ptr_split b pre post hptr
  refine ⟨pre ++ post, ?_, ?_⟩
  · exact stailq_remove_split b pre post
      (fun x hx => hne x (List.mem_append_left _ hx))
  · rw [lookup_backend_eq]
    refine (lookup_loop_none P _ _).mpr ?_
    intro x hx
    have hxhead : x ∈ pre ++ b :: post := by
      rcases List.mem_append.mp hx with hxp | hxp
      · exact List.mem_append_left _ hxp
      · exact List.mem_append_right _ (List.mem_cons_of_mem _ hxp)
    exact hothers x hxhead (fun hxb => hne x hx (by rw [hxb]))

/-- Witness for C11: of the rules example and www only www matches www.test;
once it is removed, lookup_backend of www.test finds nothing. -/
theorem remove_then_lookup_no_match_witness :
    rule_www ∈ [rule_example, rule_www] ∧
      matches_hostname literal_pcre rule_www (cstr "www.test") ∧
      remove_backend [rule_example, rule_www] rule_www = some [rule_example] ∧
      ∃ rest, remove_backend [rule_example, rule_www] rule_www = some rest ∧
        lookup_backend literal_pcre rest (some (cstr "www.test")) = none :=
  ⟨by decide, by decide, by decide,
    remove_then_lookup_no_match literal_pcre [rule_example, rule_www] rule_www
      (cstr "www.test") (by decide) (by decide) (by decide) (by decide)⟩

/-- Claim C12: lookup_backend with a NULL hostname returns what lookup_backend
with the empty string returns, for every registry. -/
theorem lookup_backend_null_hostname {Re : Type} (P : Pcre Re) (head : Backend_head Re) :
    lookup_backend P head none = lookup_backend P head (some []) ∧
      lookup_backend P head none = lookup_backend P head (some (cstr "")) :=
  ⟨rfl, rfl⟩

/-- Claim C18: for a registry whose Backends sit at distinct addresses and a
member b of it, with the Backends pre before it and post after it,
remove_backend of b leaves exactly pre followed by post, wherever b stands; and
lookup_backend on what is left returns the first Backend of pre followed by post
that matches, or NULL when none does. -/
theorem remove_backend_deletes_member {Re : Type} (head : Backend_head Re)
    (b : Backend Re) (pre post : List (Backend Re))
    (hsplit : head = pre ++ b :: post)
    (hptr : (head.map Backend.ptr).Nodup) :
    remove_backend head b = some (pre ++ post) ∧
    ∀ (P : Pcre Re) (hostname : Option CStr),
      (∀ x, lookup_backend P (pre ++ post) hostname = some x ↔
        ∃ l1 l2, pre ++ post = l1 ++ x :: l2 ∧
          matches_hostname P x (subject_of hostname) ∧
          ∀ y ∈ l1, ¬ matches_hostname P y (subject_of hostname)) ∧
      (lookup_backend P (pre ++ post) hostname = none ↔
        ∀ y ∈ pre ++ post, ¬ matches_hostname P y (subject_of hostname)) := by
  subst hsplit
  have hne := nodup_ptr_split b pre post hptr
  refine ⟨stailq_remove_split b pre post
    (fun x hx => hne x (List.mem_append_left _ hx)), ?_⟩
  intro P hostname
  rw [lookup_backend_eq]
  exact ⟨fun x => lookup_loop_some P _ _ x, lookup_loop_none P _ _⟩

/-- Witness for C18: removing the middle one of three rules leaves the first and
the third, in that order, and removing the first or the last leaves the other
two. -/
theorem remove_backend_deletes_member_witness :
    remove_backend [rule_example, rule_www, rule_com] rule_example =
        some [rule_www, rule_com] ∧
      remove_backend [rule_example, rule_www, rule_com] rule_com =
        some [rule_example, rule_www] ∧
      remove_backend [rule_example, rule_www, rule_com] rule_www =
        some ([rule_example] ++ [rule_com]) :=
  ⟨by decide, by decide,
    (remove_backend_deletes_member [rule_example, rule_www, rule_com] rule_www
      [rule_example] [rule_com] rfl (by decide)).1⟩

/-! ## The shape of the registry -/

/-- Claim C14: after a successful add_backend the registry is the previous
sequence with the returned Backend appended: one longer, every former position
holding what it held; and whenever the allocations succeed, the pattern compiles
and the address is a non-empty C string, the add succeeds whatever the registry
already holds, an equal or overlapping pattern included. -/
theorem add_backend_appends {Re : Type} (P : Pcre Re) (alloc : Alloc)
    (head : Backend_head Re) (hostname address : CStr) (port : Int) :
    (∀ r b, add_backend P alloc head hostname address port = some r → r.ret = some b →
      r.head = head ++ [b] ∧ r.head.length = head.length + 1 ∧
      r.head.take head.length = head ∧
      (∀ i, i < head.length → r.head[i]? = head[i]?) ∧
      r.head[head.length]? = some b) ∧
    (¬ alloc.fails → address ≠ [] → 0 ∉ address → P.pcre_compile hostname 0 ≠ none →
      ∃ b, add_backend P alloc head hostname address port = some ⟨some b, head ++ [b], []⟩) := by
  constructor
  · intro r b hr hb
    have hhead : r.head = head ++ [b] := by
      obtain ⟨_, _, _, _, _, _, hh, _⟩ :=
        add_backend_success P alloc head hostname address port r b hr hb
      exact hh
    refine ⟨hhead, by rw [hhead]; simp, by rw [hhead]; simp, ?_, by rw [hhead]; simp⟩
    intro i hi
    rw [hhead]
    exact List.getElem?_append_left hi
  · intro hnf hne hnul hcomp
    rcases add_backend_cases P alloc head hostname address port with
      ⟨hc, _⟩ | ⟨_, hs, _⟩ | ⟨_, hl, _⟩ | ⟨_, _, hp, _⟩ | ⟨p, re, _, _, _, _, h⟩
    · exact absurd (Or.inl hc) hnf
    · exact absurd (Or.inr hs) hnf
    · rw [lower_loop_strdup address hne hnul] at hl
      cases hl
    · exact absurd hp hcomp
    · exact ⟨_, h⟩

/-- Witness for C14: with the rule (example, 10.0.0.5, 443) registered, adding
the same rule again succeeds and appends a second Backend for it. -/
theorem add_backend_appends_witness :
    add_backend literal_pcre (alloc_ok 2) [rule_example] (cstr "example") (cstr "10.0.0.5")
        443 = some ⟨some rule_example_again, [rule_example, rule_example_again], []⟩ ∧
      ∃ b, add_backend literal_pcre (alloc_ok 2) [rule_example] (cstr "example")
        (cstr "10.0.0.5") 443 = some ⟨some b, [rule_example] ++ [b], []⟩ :=
  ⟨by decide,
    (add_backend_appends literal_pcre (alloc_ok 2) [rule_example] (cstr "example")
      (cstr "10.0.0.5") 443).2 (by decide) (by decide) (by decide) (by decide)⟩

/-- Claim C16: in every registry reachable from the empty registry by calls of
add_backend and remove_backend, every Backend holds its pattern text, its
address text and a compiled matcher, and the matcher is what pcre_compile
yields for the pattern text: no Backend whose pattern failed to compile is in
the sequence. -/
theorem reachable_backends_complete {Re : Type} (P : Pcre Re) (head : Backend_head Re)
    (hreach : Reachable P head) :
    ∀ b ∈ head, ∃ pattern address re,
      b.hostname = some pattern ∧ b.address = some address ∧
      b.hostname_re = some re ∧ P.pcre_compile pattern 0 = some re := by
  induction hreach with
  | empty => intro b hb; simp at hb
  | add head alloc hostname address port r _ hadd ih =>
    intro b hb
    cases hret : r.ret with
    | none =>
      rw [(add_backend_failure P alloc head hostname address port r hadd hret).1] at hb
      exact ih b hb
    | some bnew =>
      obtain ⟨p, re, _, hp, _, hbe, hhead, _⟩ :=
        add_backend_success P alloc head hostname address port r bnew hadd hret
      rw [hhead] at hb
      rcases List.mem_append.mp hb with hold | hnew
      · exact ih b hold
      · rw [List.mem_singleton] at hnew
        subst hnew
        subst hbe
        exact ⟨hostname, _, re, rfl, rfl, rfl, hp⟩
  | remove head backend rest _ hrem ih =>
    intro b hb
    exact ih b (stailq_remove_mem backend.ptr head rest hrem b hb)

/-- Witness for C16: the registry holding the rule (example, 10.0.0.5, 443) is
reached from the empty one by one add_backend, and its Backend is complete. -/
theorem reachable_backends_complete_witness :
    Reachable literal_pcre [rule_example] ∧
      ∀ b ∈ [rule_example], ∃ pattern address re,
        b.hostname = some pattern ∧ b.address = some address ∧
        b.hostname_re = some re ∧ literal_pcre.pcre_compile pattern 0 = some re :=
  have hreach : Reachable literal_pcre [rule_example] :=
    Reachable.add [] (alloc_ok 1) (cstr "example") (cstr "10.0.0.5") 443
      ⟨some rule_example, [rule_example], []⟩ Reachable.empty (by decide)
  ⟨hreach, reachable_backends_complete literal_pcre [rule_example] hreach⟩

/-! ## Lemmas on the decimal text of a port -/

theorem dec_digits_fuel_value (fuel : Nat) :
    ∀ (n : Nat) (acc : List Nat), n < fuel →
      undigits (dec_digits_fuel fuel n acc) =
        acc.foldl (fun a d => 10 * a + (d - 48)) n := by
  induction fuel with
  | zero => intro n acc h; omega
  | succ fuel ih =>
    intro n acc hn
    by_cases h0 : n / 10 = 0
    · have hlt : n < 10 := by
        by_contra hge
        have : 1 ≤ n / 10 := (Nat.le_div_iff_mul_le (by decide)).mpr (by omega)
        omega
      have hmod : n % 10 = n := Nat.mod_eq_of_lt hlt
      simp [dec_digits_fuel, h0, undigits, hmod]
    · have hdiv : n / 10 < fuel := by
        have : n / 10 < n := Nat.div_lt_self (by omega) (by decide)
        omega
      simp only [dec_digits_fuel, h0, if_false]
      rw [ih (n / 10) _ hdiv]
      have hval : 10 * (n / 10) + (48 + n % 10 - 48) = n := by omega
      rw [List.foldl_cons, hval]

theorem undigits_dec_digits (n : Nat) : undigits (dec_digits n) = n := by
  unfold dec_digits
  rw [dec_digits_fuel_value (n + 1) n [] (by omega)]
  rfl

theorem dec_digits_fuel_digits (fuel : Nat) :
    ∀ (n : Nat) (acc : List Nat), (∀ d ∈ acc, 48 ≤ d ∧ d ≤ 57) →
      ∀ d ∈ dec_digits_fuel fuel n acc, 48 ≤ d ∧ d ≤ 57 := by
  induction fuel with
  | zero => intro n acc hacc; simpa [dec_digits_fuel] using hacc
  | succ fuel ih =>
    intro n acc hacc
    have hacc' : ∀ d ∈ (48 + n % 10) :: acc, 48 ≤ d ∧ d ≤ 57 := by
      intro d hd
      rcases List.mem_cons.mp hd with h | h
      · subst h; omega
      · exact hacc d h
    by_cases h0 : n / 10 = 0
    · simpa [dec_digits_fuel, h0] using hacc'
    · simp only [dec_digits_fuel, h0, if_false]
      exact ih _ _ hacc'

theorem dec_digits_fuel_leading (fuel : Nat) :
    ∀ (n : Nat) (acc : List Nat), n < fuel → 1 ≤ n →
      ∃ d rest, dec_digits_fuel fuel n acc = d :: rest ∧ 49 ≤ d := by
  induction fuel with
  | zero => intro n acc h; omega
  | succ fuel ih =>
    intro n acc hn h1
    by_cases h0 : n / 10 = 0
    · exact ⟨48 + n % 10, acc, by simp [dec_digits_fuel, h0], by omega⟩
    · have hdiv : n / 10 < fuel := by
        have : n / 10 < n := Nat.div_lt_self (by omega) (by decide)
        omega
      simp only [dec_digits_fuel, h0, if_false]
      exact ih _ _ hdiv (by omega)

theorem fmt_d_leading (q : Int) (hq : 1 ≤ q) :
    ∃ d rest, fmt_d q = d :: rest ∧ 49 ≤ d := by
  have hneg : ¬ q < 0 := by omega
  simp only [fmt_d, hneg, if_false, dec_digits]
  exact dec_digits_fuel_leading _ _ [] (by omega) (by omega)

theorem fmt_d_value (v : Int) (hv : 0 ≤ v) : (undigits (fmt_d v) : Int) = v := by
  have hneg : ¬ v < 0 := by omega
  simp only [fmt_d, hneg, if_false, undigits_dec_digits]
  omega

theorem fmt_d_digits (v : Int) (hv : 0 ≤ v) : ∀ d ∈ fmt_d v, 48 ≤ d ∧ d ≤ 57 := by
  have hneg : ¬ v < 0 := by omega
  simp only [fmt_d, hneg, if_false, dec_digits]
  exact dec_digits_fuel_digits _ _ [] (by simp)

theorem snprintf_d_leading_nonpositive (port : Int) (hport : port ≤ 0) :
    ∃ d rest, snprintf_d 6 port = d :: rest ∧ d ≤ 48 := by
  by_cases hneg : port < 0
  · exact ⟨45, (dec_digits port.natAbs).take 4, by simp [snprintf_d, fmt_d, hneg], by omega⟩
  · have h0 : port = 0 := by omega
    subst h0
    exact ⟨48, [], by decide, by omega⟩

theorem snprintf_d_not_valid_port (port q : Int)
    (hport : port ≤ 0 ∨ (65536 ≤ port ∧ port ≤ 99999)) (hq : 1 ≤ q) (hq' : q ≤ 65535) :
    snprintf_d 6 port ≠ fmt_d q := by
  intro heq
  rcases hport with hle | ⟨hlo, hhi⟩
  · obtain ⟨d, rest, hd, hd48⟩ := snprintf_d_leading_nonpositive port hle
    obtain ⟨e, rest', he, he49⟩ := fmt_d_leading q hq
    rw [hd, he] at heq
    have : d = e := (List.cons.inj heq).1
    omega
  · rw [snprintf_d_exact port (by omega) hhi] at heq
    have h1 := fmt_d_value port (by omega)
    have h2 := fmt_d_value q (by omega)
    rw [heq] at h1
    omega

/-! ## The port handed to the resolver -/

/-- Claim C15, as stated, fails: add_backend accepts the port 100000, which is
outside 1-65535, and open_backend_socket then hands the resolver the service
10000, the decimal form of the valid port 10000; the lookup succeeds and the
call connects to that port. -/
theorem invalid_port_reaches_valid_port :
    add_backend literal_pcre (alloc_ok 1) [] (cstr "example") (cstr "10.0.0.5") 100000 =
        some ⟨some rule_big_port, [rule_big_port], []⟩ ∧
      ¬ (1 ≤ rule_big_port.port ∧ rule_big_port.port ≤ 65535) ∧
      (open_backend_socket example_net rule_big_port none).map
          (fun r => (r.ret, r.calls.head?)) =
        some (5, some (Call.getaddrinfo (some (cstr "10.0.0.5")) (fmt_d 10000))) ∧
      ((1 : Int) ≤ 10000 ∧ (10000 : Int) ≤ 65535) :=
  ⟨by decide, by decide, by decide, by decide⟩

/-- Claim C15, amended: add_backend stores any port without validation, and for
every stored port that is zero, negative or between 65536 and 99999 the service
that open_backend_socket hands to the resolver is not the decimal form of any
port from 1 to 65535. -/
theorem invalid_port_service {Re : Type} (P : Pcre Re) (N : Net) :
    (∀ (alloc : Alloc) (head : Backend_head Re) (hostname address : CStr) (port : Int),
      ¬ alloc.fails → address ≠ [] → 0 ∉ address → P.pcre_compile hostname 0 ≠ none →
      ∃ b, add_backend P alloc head hostname address port = some ⟨some b, head ++ [b], []⟩ ∧
        b.port = port) ∧
    (∀ (b : Backend Re) (req_hostname : Option CStr) (address : CStr),
      b.address = some address →
      (b.port ≤ 0 ∨ (65536 ≤ b.port ∧ b.port ≤ 99999)) →
      ∃ ret more service, open_backend_socket N b req_hostname =
          some ⟨ret, Call.getaddrinfo (target_hostname address req_hostname) service :: more⟩ ∧
        ∀ q : Int, 1 ≤ q → q ≤ 65535 → service ≠ fmt_d q) := by
  constructor
  · intro alloc head hostname address port hnf hne hnul hcomp
    rcases add_backend_cases P alloc head hostname address port with
      ⟨hc, _⟩ | ⟨_, hs, _⟩ | ⟨_, hl, _⟩ | ⟨_, _, hp, _⟩ | ⟨p, re, _, _, _, _, h⟩
    · exact absurd (Or.inl hc) hnf
    · exact absurd (Or.inr hs) hnf
    · rw [lower_loop_strdup address hne hnul] at hl
      cases hl
    · exact absurd hp hcomp
    · exact ⟨_, h, rfl⟩
  · intro b req_hostname address haddr hport
    obtain ⟨ret, more, hr⟩ := open_backend_socket_calls N b req_hostname address haddr
    exact ⟨ret, more, snprintf_d 6 b.port, hr,
      fun q hq hq' => snprintf_d_not_valid_port b.port q hport hq hq'⟩

/-- Witness for C15: the port 70000 is stored as given, and a Backend with that
port hands the resolver a service that is the text of no valid port. -/
theorem invalid_port_service_witness :
    add_backend literal_pcre (alloc_ok 1) [] (cstr "example") (cstr "10.0.0.5") 70000 =
        some ⟨some ⟨1, some (cstr "example"), some (cstr "10.0.0.5"), 70000,
          some (cstr "example")⟩,
          [⟨1, some (cstr "example"), some (cstr "10.0.0.5"), 70000,
            some (cstr "example")⟩], []⟩ ∧
      ∃ ret more service,
        open_backend_socket example_net
            (⟨1, some (cstr "example"), some (cstr "10.0.0.5"), 70000,
              some (cstr "example")⟩ : Backend CStr) none =
          some ⟨ret, Call.getaddrinfo (target_hostname (cstr "10.0.0.5") none) service ::
            more⟩ ∧
        ∀ q : Int, 1 ≤ q → q ≤ 65535 → service ≠ fmt_d q :=
  ⟨by decide,
    (invalid_port_service literal_pcre example_net).2
      ⟨1, some (cstr "example"), some (cstr "10.0.0.5"), 70000, some (cstr "example")⟩
      none (cstr "10.0.0.5") rfl (Or.inr ⟨by decide, by decide⟩)⟩

/-- Claim C20: for a Backend whose port lies between 1 and 65535, the service
that open_backend_socket formats and hands to the resolver is the decimal text
of the port: at most five bytes, so that it fits the buffer of six with its
terminator, all of them digits, the first not a zero, and denoting the port; and
a valid port with the same service is the same port. -/
theorem valid_port_service_exact {Re : Type} (N : Net) (b : Backend Re)
    (req_hostname : Option CStr) (address : CStr)
    (haddr : b.address = some address) (hlo : 1 ≤ b.port) (hhi : b.port ≤ 65535) :
    ∃ ret more service, open_backend_socket N b req_hostname =
        some ⟨ret, Call.getaddrinfo (target_hostname address req_hostname) service :: more⟩ ∧
      service = snprintf_d 6 b.port ∧
      service = fmt_d b.port ∧
      service.length + 1 ≤ 6 ∧
      (∀ d ∈ service, 48 ≤ d ∧ d ≤ 57) ∧
      (∃ d rest, service = d :: rest ∧ 49 ≤ d) ∧
      (undigits service : Int) = b.port ∧
      ∀ q : Int, 1 ≤ q → q ≤ 65535 → snprintf_d 6 q = service → q = b.port := by
  obtain ⟨ret, more, hr⟩ := open_backend_socket_calls N b req_hostname address haddr
  have hexact := snprintf_d_exact b.port (by omega) (by omega)
  refine ⟨ret, more, snprintf_d 6 b.port, hr, rfl, hexact, ?_, ?_, ?_, ?_, ?_⟩
  · rw [hexact]
    have := fmt_d_length b.port (by omega) (by omega)
    omega
  · rw [hexact]
    exact fmt_d_digits b.port (by omega)
  · rw [hexact]
    exact fmt_d_leading b.port hlo
  · rw [hexact]
    exact fmt_d_value b.port (by omega)
  · intro q hq hq' heq
    rw [hexact, snprintf_d_exact q (by omega) (by omega)] at heq
    have h1 := fmt_d_value q (by omega)
    have h2 := fmt_d_value b.port (by omega)
    rw [heq] at h1
    omega

/-- Witness for C20: the rule with port 443 hands the resolver the three bytes
of 443. -/
theorem valid_port_service_exact_witness :
    snprintf_d 6 rule_up.port = cstr "443" ∧
      ∃ ret more service, open_backend_socket example_net rule_up none =
          some ⟨ret, Call.getaddrinfo (target_hostname (cstr "up.example") none) service ::
            more⟩ ∧
        service = snprintf_d 6 rule_up.port ∧
        service = fmt_d rule_up.port ∧
        service.length + 1 ≤ 6 ∧
        (∀ d ∈ service, 48 ≤ d ∧ d ≤ 57) ∧
        (∃ d rest, service = d :: rest ∧ 49 ≤ d) ∧
        (undigits service : Int) = rule_up.port ∧
        ∀ q : Int, 1 ≤ q → q ≤ 65535 → snprintf_d 6 q = service → q = rule_up.port :=
  ⟨by decide,
    valid_port_service_exact example_net rule_up none (cstr "up.example") rfl
      (by decide) (by decide)⟩

/-! ## Lemmas on open descriptors -/

theorem descriptors_open_append (l1 l2 : List Call) :
    ∀ opened, descriptors_open (l1 ++ l2) opened =
      descriptors_open l2 (descriptors_open l1 opened) := by
  induction l1 with
  | nil => intro opened; rfl
  | cons c l1 ih =>
    intro opened
    cases c <;> simp [descriptors_open, ih]

theorem descriptors_open_attempt (c : Candidate) (opened : List Int) :
    descriptors_open (attempt_calls c) opened = opened := by
  by_cases hs : c.socket_ret < 0
  · simp [attempt_calls, hs, descriptors_open]
  · simp [attempt_calls, hs, descriptors_open]

theorem descriptors_open_failed (l : List Candidate) (opened : List Int) :
    descriptors_open (failed_calls l) opened = opened := by
  induction l with
  | nil => rfl
  | cons c l ih =>
    rw [failed_calls, descriptors_open_append, descriptors_open_attempt, ih]

theorem connect_loop_all_fail (l : List Candidate) :
    ∀ st : LoopState, (∀ x ∈ l, x.socket_ret < 0 ∨ x.connect_ret < 0) → st.sockfd < 0 →
      ∃ fd cause, connect_loop l st = ⟨fd, cause, st.calls ++ failed_calls l⟩ ∧ fd < 0 := by
  induction l with
  | nil =>
    intro st _ hst
    exact ⟨st.sockfd, st.cause, by simp [connect_loop, failed_calls], hst⟩
  | cons c l ih =>
    intro st hall _
    have hc := hall c (List.mem_cons_self _ _)
    have hrest : ∀ x ∈ l, x.socket_ret < 0 ∨ x.connect_ret < 0 :=
      fun x hx => hall x (List.mem_cons_of_mem _ hx)
    by_cases hs : c.socket_ret < 0
    · obtain ⟨fd, cause, h, hfd⟩ := ih
        ⟨c.socket_ret, some "socket",
          st.calls ++ [Call.socket c.ai_family c.ai_socktype c.ai_protocol]⟩ hrest hs
      refine ⟨fd, cause, ?_, hfd⟩
      have step : connect_loop (c :: l) st =
          connect_loop l ⟨c.socket_ret, some "socket",
            st.calls ++ [Call.socket c.ai_family c.ai_socktype c.ai_protocol]⟩ := by
        simp only [connect_loop, hs, if_true]
      rw [step, h]
      simp [failed_calls, attempt_calls, hs]
    · have hconn : c.connect_ret < 0 := by
        rcases hc with h | h
        · exact absurd h hs
        · exact h
      obtain ⟨fd, cause, h, hfd⟩ := ih
        ⟨-1, some "connect",
          st.calls ++ [Call.socket c.ai_family c.ai_socktype c.ai_protocol] ++
            [Call.connect c.socket_ret c.ai_addr] ++ [Call.close c.socket_ret]⟩ hrest
        (show (-1 : Int) < 0 by omega)
      refine ⟨fd, cause, ?_, hfd⟩
      have step : connect_loop (c :: l) st =
          connect_loop l ⟨-1, some "connect",
            st.calls ++ [Call.socket c.ai_family c.ai_socktype c.ai_protocol] ++
              [Call.connect c.socket_ret c.ai_addr] ++ [Call.close c.socket_ret]⟩ := by
        simp only [connect_loop, hs, if_false, hconn, if_true]
      rw [step, h]
      simp [failed_calls, attempt_calls, hs]

theorem candidates_split (l : List Candidate) :
    ∃ tried rest, l = tried ++ rest ∧
      (∀ x ∈ tried, x.socket_ret < 0 ∨ x.connect_ret < 0) ∧
      (rest = [] ∨ ∃ c post, rest = c :: post ∧ 0 ≤ c.socket_ret ∧ 0 ≤ c.connect_ret) := by
  induction l with
  | nil => exact ⟨[], [], rfl, by simp, Or.inl rfl⟩
  | cons c l ih =>
    by_cases hc : c.socket_ret < 0 ∨ c.connect_ret < 0
    · obtain ⟨tried, rest, hsplit, htried, hrest⟩ := ih
      refine ⟨c :: tried, rest, by simp [hsplit], ?_, hrest⟩
      intro x hx
      rcases List.mem_cons.mp hx with h | h
      · subst h; exact hc
      · exact htried x h
    · refine ⟨[], c :: l, rfl, by simp, Or.inr ⟨c, l, rfl, ?_, ?_⟩⟩ <;> omega

/-! ## Sockets left open by the dispatcher -/

/-- Claim C17: open_backend_socket on a Backend with an address returns, and its
calls are the lookup, then for each candidate tried and failed, in resolver
order, socket alone or socket, connect and close of that same socket one after
the other, and then one of three endings: the message of a failed lookup, the
LOG_ERR message and freeaddrinfo with a negative result, or socket and connect
for the candidate whose descriptor is returned and freeaddrinfo. So the socket of
every failed connect is closed before the next socket call, and the descriptors
left open at the return are the returned one alone, or none on failure. -/
theorem open_backend_socket_closes_failed_sockets {Re : Type} (N : Net) (b : Backend Re)
    (req_hostname : Option CStr) (address : CStr) (haddr : b.address = some address) :
    ∃ r tried rest final, open_backend_socket N b req_hostname = some r ∧
      (N.getaddrinfo (target_hostname address req_hostname) (snprintf_d 6 b.port)).2 =
        tried ++ rest ∧
      (∀ x ∈ tried, x.socket_ret < 0 ∨ x.connect_ret < 0) ∧
      r.calls =
        Call.getaddrinfo (target_hostname address req_hostname) (snprintf_d 6 b.port) ::
          (failed_calls tried ++ final) ∧
      ((∃ error, final = [Call.syslog (Syslog.lookup_error error)] ∧ tried = [] ∧
          r.ret = -1) ∨
        (∃ cause, final = [Call.syslog (Syslog.cause_error cause), Call.freeaddrinfo] ∧
          rest = [] ∧ r.ret < 0) ∨
        (∃ c post, rest = c :: post ∧
          final = [Call.socket c.ai_family c.ai_socktype c.ai_protocol,
            Call.connect c.socket_ret c.ai_addr, Call.freeaddrinfo] ∧
          r.ret = c.socket_ret ∧ 0 ≤ r.ret)) ∧
      descriptors_open r.calls [] = (if 0 ≤ r.ret then [r.ret] else []) := by
  cases hg : N.getaddrinfo (target_hostname address req_hostname) (snprintf_d 6 b.port) with
  | mk error results =>
    by_cases herr : error = 0
    · obtain ⟨tried, rest, hsplit, htried, hrest⟩ := candidates_split results
      rcases hrest with hnil | ⟨c, post, hcons, hsock, hconn⟩
      · subst hnil
        rw [List.append_nil] at hsplit
        subst hsplit
        obtain ⟨fd, cause, hloop, hfd⟩ := connect_loop_all_fail results
          ⟨-1, none,
            [Call.getaddrinfo (target_hostname address req_hostname) (snprintf_d 6 b.port)]⟩
          htried (show (-1 : Int) < 0 by omega)
        have hnot : ¬ 0 ≤ fd := by omega
        refine ⟨⟨fd, Call.getaddrinfo (target_hostname address req_hostname)
            (snprintf_d 6 b.port) ::
            (failed_calls results ++
              [Call.syslog (Syslog.cause_error cause), Call.freeaddrinfo])⟩,
          results, [], [Call.syslog (Syslog.cause_error cause), Call.freeaddrinfo],
          ?_, by simp, htried, rfl, Or.inr (Or.inl ⟨cause, rfl, rfl, hfd⟩), ?_⟩
        · simp only [open_backend_socket, haddr, hg, herr, ne_eq, not_true_eq_false,
            if_false, hloop, hfd, if_true]
          simp
        · simp only [descriptors_open, descriptors_open_append, descriptors_open_failed,
            hnot, if_false]
      · subst hcons
        subst hsplit
        obtain ⟨fd, cause, hskip⟩ := connect_loop_skip tried (c :: post)
          ⟨-1, none,
            [Call.getaddrinfo (target_hostname address req_hostname) (snprintf_d 6 b.port)]⟩
          htried
        have hnot : ¬ c.socket_ret < 0 := by omega
        refine ⟨⟨c.socket_ret, Call.getaddrinfo (target_hostname address req_hostname)
            (snprintf_d 6 b.port) ::
            (failed_calls tried ++
              [Call.socket c.ai_family c.ai_socktype c.ai_protocol,
                Call.connect c.socket_ret c.ai_addr, Call.freeaddrinfo])⟩,
          tried, c :: post,
          [Call.socket c.ai_family c.ai_socktype c.ai_protocol,
            Call.connect c.socket_ret c.ai_addr, Call.freeaddrinfo],
          ?_, rfl, htried, rfl, Or.inr (Or.inr ⟨c, post, rfl, rfl, rfl, hsock⟩), ?_⟩
        · simp only [open_backend_socket, haddr, hg, herr, ne_eq, not_true_eq_false,
            if_false, hskip, connect_loop_succeeds c post _ hsock hconn, hnot]
          simp
        · simp only [descriptors_open, descriptors_open_append, descriptors_open_failed,
            hsock, if_true]
    · refine ⟨⟨-1, [Call.getaddrinfo (target_hostname address req_hostname)
          (snprintf_d 6 b.port), Call.syslog (Syslog.lookup_error error)]⟩,
        [], results, [Call.syslog (Syslog.lookup_error error)],
        ?_, rfl, by simp, rfl, Or.inl ⟨error, rfl, rfl, rfl⟩, ?_⟩
      · simp only [open_backend_socket, haddr, hg, herr, ne_eq, not_false_eq_true, if_true]
        simp
      · simp [descriptors_open]

/-- Witness for C17: for up.example the socket of the refused connection,
descriptor 5, is closed before the second socket call, and descriptor 6, the
one returned, is the only one left open. -/
theorem open_backend_socket_closes_failed_sockets_witness :
    open_backend_socket example_net rule_up none =
        some ⟨6, [Call.getaddrinfo (some (cstr "up.example")) (cstr "443"),
          Call.socket 2 1 6, Call.connect 5 cand_refusing.ai_addr, Call.close 5,
          Call.socket 2 1 6, Call.connect 6 cand_accepting.ai_addr, Call.freeaddrinfo]⟩ ∧
      descriptors_open [Call.getaddrinfo (some (cstr "up.example")) (cstr "443"),
          Call.socket 2 1 6, Call.connect 5 cand_refusing.ai_addr, Call.close 5,
          Call.socket 2 1 6, Call.connect 6 cand_accepting.ai_addr, Call.freeaddrinfo] [] =
        [6] ∧
      ∃ r tried rest final, open_backend_socket example_net rule_up none = some r ∧
        (example_net.getaddrinfo (target_hostname (cstr "up.example") none)
          (snprintf_d 6 rule_up.port)).2 = tried ++ rest ∧
        (∀ x ∈ tried, x.socket_ret < 0 ∨ x.connect_ret < 0) ∧
        r.calls =
          Call.getaddrinfo (target_hostname (cstr "up.example") none)
              (snprintf_d 6 rule_up.port) ::
            (failed_calls tried ++ final) ∧
        ((∃ error, final = [Call.syslog (Syslog.lookup_error error)] ∧ tried = [] ∧
            r.ret = -1) ∨
          (∃ cause, final = [Call.syslog (Syslog.cause_error cause), Call.freeaddrinfo] ∧
            rest = [] ∧ r.ret < 0) ∨
          (∃ c post, rest = c :: post ∧
            final = [Call.socket c.ai_family c.ai_socktype c.ai_protocol,
              Call.connect c.socket_ret c.ai_addr, Call.freeaddrinfo] ∧
            r.ret = c.socket_ret ∧ 0 ≤ r.ret)) ∧
        descriptors_open r.calls [] = (if 0 ≤ r.ret then [r.ret] else []) :=
  ⟨by decide, by decide,
    open_backend_socket_closes_failed_sockets example_net rule_up none (cstr "up.example") rfl⟩


/-! ## Lemmas on the pattern fragment -/

theorem many_then_iff (a : Atom) (k : CStr → Bool) :
    ∀ s : CStr, many_then a k s = true ↔
      ∃ m r, s = m ++ r ∧ (∀ d ∈ m, atom_matches a d = true) ∧ k r = true := by
  intro s
  induction s with
  | nil =>
    simp only [many_then]
    constructor
    · intro hk
      exact ⟨[], [], rfl, by simp, hk⟩
    · rintro ⟨m, r, hs, _, hk⟩
      have hr : r = [] := (List.append_eq_nil.mp hs.symm).2
      rw [hr] at hk
      exact hk
  | cons d s ih =>
    simp only [many_then, Bool.or_eq_true, Bool.and_eq_true, ih]
    constructor
    · rintro (hk | ⟨hd, m, r, hs, hm, hk⟩)
      · exact ⟨[], d :: s, rfl, by simp, hk⟩
      · refine ⟨d :: m, r, by simp [hs], ?_, hk⟩
        intro e he
        rcases List.mem_cons.mp he with h | h
        · subst h; exact hd
        · exact hm e h
    · rintro ⟨m, r, hs, hm, hk⟩
      cases m with
      | nil =>
        simp only [List.nil_append] at hs
        rw [← hs] at hk
        exact Or.inl hk
      | cons e m =>
        simp only [List.cons_append, List.cons.injEq] at hs
        obtain ⟨hde, hs⟩ := hs
        subst hde
        exact Or.inr ⟨hm d (List.mem_cons_self _ _), m, r, hs,
          fun x hx => hm x (List.mem_cons_of_mem _ hx), hk⟩

theorem run_items_iff (items : List Item) :
    ∀ (k : CStr → Bool) (s : CStr), run_items items k s = true ↔
      ∃ mid rest, s = mid ++ rest ∧ full_match items mid = true ∧ k rest = true := by
  induction items with
  | nil =>
    intro k s
    simp only [run_items, full_match]
    constructor
    · intro hk
      exact ⟨[], s, rfl, rfl, hk⟩
    · rintro ⟨mid, rest, hs, hmid, hk⟩
      have hnil : mid = [] := List.isEmpty_iff.mp hmid
      subst hnil
      simp only [List.nil_append] at hs
      rw [hs]
      exact hk
  | cons item items ih =>
    intro k s
    cases item with
    | one a =>
      cases s with
      | nil =>
        simp only [run_items, Bool.false_eq_true, false_iff]
        rintro ⟨mid, rest, hs, hmid, _⟩
        have hnil : mid = [] := (List.append_eq_nil.mp hs.symm).1
        subst hnil
        simp [full_match, run_items] at hmid
      | cons d s =>
        simp only [run_items, Bool.and_eq_true, ih k s]
        constructor
        · rintro ⟨hd, mid, rest, hs, hmid, hk⟩
          refine ⟨d :: mid, rest, by simp [hs], ?_, hk⟩
          simp only [full_match, run_items, Bool.and_eq_true]
          exact ⟨hd, hmid⟩
        · rintro ⟨mid, rest, hs, hmid, hk⟩
          cases mid with
          | nil => simp [full_match, run_items] at hmid
          | cons e mid =>
            simp only [List.cons_append, List.cons.injEq] at hs
            obtain ⟨hde, hs⟩ := hs
            subst hde
            simp only [full_match, run_items, Bool.and_eq_true] at hmid
            exact ⟨hmid.1, mid, rest, hs, hmid.2, hk⟩
    | many a =>
      simp only [run_items, full_match, many_then_iff]
      constructor
      · rintro ⟨m, r, hs, hm, hrun⟩
        obtain ⟨mid, rest, hr, hmid, hk⟩ := (ih k r).mp hrun
        exact ⟨m ++ mid, rest, by simp [hs, hr], ⟨m, mid, rfl, hm, hmid⟩, hk⟩
      · rintro ⟨mid0, rest, hs, ⟨m, r, hmid0, hm, hrun⟩, hk⟩
        refine ⟨m, r ++ rest, by simp [hs, hmid0], hm, ?_⟩
        exact (ih k (r ++ rest)).mpr ⟨r, rest, rfl, hrun, hk⟩

theorem match_here_iff (items : List Item) (s : CStr) :
    match_here items s = true ↔
      ∃ mid rest, s = mid ++ rest ∧ full_match items mid = true := by
  unfold match_here
  rw [run_items_iff]
  simp

theorem search_iff (items : List Item) :
    ∀ s : CStr, search items s = true ↔
      ∃ s1 mid s2, s = s1 ++ mid ++ s2 ∧ full_match items mid = true := by
  intro s
  induction s with
  | nil =>
    simp only [search, match_here_iff]
    constructor
    · rintro ⟨mid, rest, hs, hm⟩
      exact ⟨[], mid, rest, by simpa using hs, hm⟩
    · rintro ⟨s1, mid, s2, hs, hm⟩
      have h1 : s1 = [] := by
        cases s1 with
        | nil => rfl
        | cons a s1 => simp at hs
      subst h1
      exact ⟨mid, s2, by simpa using hs, hm⟩
  | cons d s ih =>
    simp only [search, Bool.or_eq_true, match_here_iff, ih]
    constructor
    · rintro (⟨mid, rest, hs, hm⟩ | ⟨s1, mid, s2, hs, hm⟩)
      · exact ⟨[], mid, rest, by simpa using hs, hm⟩
      · exact ⟨d :: s1, mid, s2, by simp [hs], hm⟩
    · rintro ⟨s1, mid, s2, hs, hm⟩
      cases s1 with
      | nil => exact Or.inl ⟨mid, s2, by simpa using hs, hm⟩
      | cons e s1 =>
        simp only [List.cons_append, List.cons.injEq] at hs
        exact Or.inr ⟨s1, mid, s2, hs.2, hm⟩

theorem fragment_search_contract : search_contract fragment_pcre fragment_span := by
  intro items subject
  have hlen : ¬ subject.length < 0 := by omega
  have h16 : ¬ (16 : Nat) = 0 := by decide
  constructor
  · simp only [fragment_pcre, fragment_exec, hlen, if_false, if_true, List.drop_zero,
      fragment_span, ← search_iff]
    by_cases hsearch : search items subject = true
    · simp [hsearch]
    · simp [hsearch]
  · simp only [fragment_pcre, fragment_exec, hlen, if_false, if_true, h16, List.drop_zero,
      fragment_span, ← match_here_iff]
    by_cases hm : match_here items subject = true
    · simp [hm]
    · simp [hm]

theorem contract_matches_iff {Re : Type} (P : Pcre Re)
    (span : Re → CStr → CStr → CStr → Prop) (hP : search_contract P span)
    (b : Backend Re) (subject : CStr) :
    matches_hostname P b subject ↔
      ∃ re, b.hostname_re = some re ∧
        ∃ s1 mid s2, subject = s1 ++ mid ++ s2 ∧ span re s1 mid s2 := by
  unfold matches_hostname exec_re
  cases hre : b.hostname_re with
  | none => simp
  | some re =>
    simp only [Option.some.injEq, exists_eq_left']
    exact (hP re subject).1

/-! ## Search, not full match -/

/-- Claim C13: lookup_backend hands every pattern to pcre_exec with start offset
0 and options 0, so without PCRE_ANCHORED. For every PCRE library that keeps the
contract of pcre_exec on anchoring, lookup_backend therefore returns a Backend
exactly when it is the first of the registry whose pattern matches some run of
consecutive bytes of the hostname, wherever the run stands; a match of the whole
hostname is the case of a run with nothing before and nothing after it, and is
not required. -/
theorem lookup_backend_searches_substring {Re : Type} (P : Pcre Re)
    (span : Re → CStr → CStr → CStr → Prop) (hP : search_contract P span)
    (head : Backend_head Re) (subject : CStr) (b : Backend Re) :
    (lookup_backend P head (some subject) = some b ↔
      ∃ pre post re, head = pre ++ b :: post ∧ b.hostname_re = some re ∧
        (∃ s1 mid s2, subject = s1 ++ mid ++ s2 ∧ span re s1 mid s2) ∧
        ∀ x ∈ pre, ∀ re', x.hostname_re = some re' →
          ¬ ∃ s1 mid s2, subject = s1 ++ mid ++ s2 ∧ span re' s1 mid s2) ∧
    (∀ re s1 mid s2, b.hostname_re = some re → subject = s1 ++ mid ++ s2 →
      span re s1 mid s2 → matches_hostname P b subject) := by
  constructor
  · rw [lookup_backend_eq]
    simp only [subject_of]
    rw [lookup_loop_some]
    constructor
    · rintro ⟨pre, post, hsplit, hb, hpre⟩
      obtain ⟨re, hre, hsub⟩ := (contract_matches_iff P span hP b subject).mp hb
      refine ⟨pre, post, re, hsplit, hre, hsub, ?_⟩
      intro x hx re' hre' hsub'
      exact hpre x hx ((contract_matches_iff P span hP x subject).mpr ⟨re', hre', hsub'⟩)
    · rintro ⟨pre, post, re, hsplit, hre, hsub, hpre⟩
      refine ⟨pre, post, hsplit,
        (contract_matches_iff P span hP b subject).mpr ⟨re, hre, hsub⟩, ?_⟩
      intro x hx hm
      obtain ⟨re', hre', hsub'⟩ := (contract_matches_iff P span hP x subject).mp hm
      exact hpre x hx re' hre' hsub'
  · intro re s1 mid s2 hre hsplit hspan
    exact (contract_matches_iff P span hP b subject).mpr ⟨re, hre, s1, mid, s2, hsplit, hspan⟩

/-- Witness for C13: the stand-in for PCRE on literal bytes, escaped bytes, dots,
star and plus keeps the contract. Under it the registry holding only the pattern
example\.com returns that Backend for www.example.com, which the pattern does
not match as a whole and which an anchored call would not match; the escaped dot
stays literal; and the pattern .* matches a NULL hostname. -/
theorem lookup_backend_searches_substring_witness :
    search_contract fragment_pcre fragment_span ∧
      add_backend fragment_pcre (alloc_ok 1) [] pattern_example_com (cstr "10.0.0.5") 443 =
        some ⟨some rule_example_com, [rule_example_com], []⟩ ∧
      lookup_backend fragment_pcre [rule_example_com] (some (cstr "www.example.com")) =
        some rule_example_com ∧
      full_match items_example_com (cstr "www.example.com") = false ∧
      fragment_pcre.pcre_exec items_example_com (cstr "www.example.com") 0 16 = -1 ∧
      lookup_backend fragment_pcre [rule_example_com] (some (cstr "www.exampleXcom")) =
        none ∧
      add_backend fragment_pcre (alloc_ok 2) [rule_example_com] (cstr ".*") (cstr "*") 443 =
        some ⟨some rule_any_host, [rule_example_com, rule_any_host], []⟩ ∧
      lookup_backend fragment_pcre [rule_example_com, rule_any_host] none =
        some rule_any_host ∧
      (lookup_backend fragment_pcre [rule_example_com] (some (cstr "www.example.com")) =
          some rule_example_com ↔
        ∃ pre post re, [rule_example_com] = pre ++ rule_example_com :: post ∧
          rule_example_com.hostname_re = some re ∧
          (∃ s1 mid s2, cstr "www.example.com" = s1 ++ mid ++ s2 ∧
            fragment_span re s1 mid s2) ∧
          ∀ x ∈ pre, ∀ re', x.hostname_re = some re' →
            ¬ ∃ s1 mid s2, cstr "www.example.com" = s1 ++ mid ++ s2 ∧
              fragment_span re' s1 mid s2) :=
  ⟨fragment_search_contract, by decide, by decide, by decide, by decide, by decide,
    by decide, by decide,
    (lookup_backend_searches_substring fragment_pcre fragment_span fragment_search_contract
      [rule_example_com] (cstr "www.example.com") rule_example_com).1⟩

/-! ## The loop over the address -/

/-- Claim C19 fails on the code for the empty address: strdup yields a block of
one byte, the terminator; the loop finds it equal to NUL, writes it back, moves
on and reads the byte after the block. add_backend with the empty address has no
defined result. For a non-empty address the loop stops at the first byte and
changes nothing. -/
theorem lower_loop_leaves_empty_address_block :
    strdup (cstr "") = [0] ∧
      lower_loop (strdup (cstr "")) = none ∧
      add_backend literal_pcre (alloc_ok 1) [] (cstr "example") (cstr "") 443 = none ∧
      lower_loop (strdup (cstr "Example.COM")) = some (strdup (cstr "Example.COM")) :=
  ⟨by decide, by decide, by decide, by decide⟩

end Sniproxy
